import Mathlib

/-!
Verification development for the authoritative server core of the Cube Connect
multiplayer board game (Node.js backend).  The definitions below are a shallow
embedding of the server sources:

* `server/src/utils/gameLogic.js` — cell keys, adjacency, `touchesAnyCube`,
  `checkWin` (the revision returning `{ isWin, winningLine }`);
* `server/src/controllers/gameController.js` — `handleMakeMove`,
  `handlePlacementMove`, `handleMovementMove` (the revision that carries
  `winningLine` and `selectedCube` in the game state);
* `server/src/services/roomManager.js` — the `RoomManager` class (rooms,
  seats, disconnect grace records, room-deletion timers).

JavaScript objects used as string-keyed maps are modelled as association
lists; a cube key `"r,c"` is identified with the integer pair `(r, c)`
(`getCubeKey` is injective, so this is faithful).  `setTimeout` handles are
modelled as freshly allocated naturals together with the set of cleared
handles; a timer callback is an explicit transition that is enabled exactly
when its handle is still referenced and not cleared.
-/

namespace CubeConnect

/-- A board coordinate.  `getCubeKey(row, col)` = `"row,col"` in the source is
a bijective encoding of this pair, so cells stand for cube keys. -/
abbrev Cell : Type := Int × Int

/-- `getCubeKey` from `gameLogic.js`: the canonical key of a grid position. -/
def getCubeKey (row col : Int) : Cell := (row, col)

/-- The occupied-cell map `board` (cube key → owner id), a JS object used as a
map.  Owner ids are 1-based naturals (`generatePlayers` uses `i + 1`). -/
abbrev Board : Type := List (Cell × Nat)

/-- Lookup in the occupied-cell map: `board[key]`, `none` = `undefined`. -/
def boardGet : Board → Cell → Option Nat
  | [], _ => none
  | (k, v) :: rest, key => if k = key then some v else boardGet rest key

/-- `delete board[key]` on a JS object map. -/
def boardDel : Board → Cell → Board
  | [], _ => []
  | (k, v) :: rest, key =>
      if k = key then boardDel rest key else (k, v) :: boardDel rest key

/-- `{ ...board, [key]: v }`: overwrite/add one binding. -/
def boardSet (b : Board) (key : Cell) (v : Nat) : Board :=
  (key, v) :: boardDel b key

/-- JavaScript truthiness of `board[key]` (a number id): present and nonzero. -/
def isTruthy : Option Nat → Bool
  | none => false
  | some v => v != 0

/-- `GRID_SIZE` from `gameLogic.js` (the server declares a 20×20 grid). -/
def GRID_SIZE : Nat := 20

/-- A cell lying inside the declared `GRID_SIZE` × `GRID_SIZE` grid. -/
def inBounds (c : Cell) : Prop :=
  0 ≤ c.1 ∧ c.1 < (GRID_SIZE : Int) ∧ 0 ≤ c.2 ∧ c.2 < (GRID_SIZE : Int)

instance (c : Cell) : Decidable (inBounds c) := by
  unfold inBounds; infer_instance

/-- `touchesAnyCube(row, col, board)` from `gameLogic.js`: some 4-neighbour
(up, down, left, right) of the cell is occupied (`!== undefined`). -/
def touchesAnyCube (row col : Int) (board : Board) : Bool :=
  (boardGet board (row - 1, col)).isSome ||
  (boardGet board (row + 1, col)).isSome ||
  (boardGet board (row, col - 1)).isSome ||
  (boardGet board (row, col + 1)).isSome

/-- The scan loop of `checkWin`: starting next to `(r, c)` and stepping by
`(dr, dc)`, collect consecutive cells owned by `pid` (strict `===` match),
stopping at the first mismatch or after `fuel` steps (the source caps each
side at `winCondition - 1` iterations). -/
def runLine (board : Board) (pid : Nat) (dr dc : Int) : Int → Int → Nat → List Cell
  | _, _, 0 => []
  | r, c, fuel + 1 =>
      let k : Cell := (r + dr, c + dc)
      if boardGet board k = some pid then
        k :: runLine board pid dr dc (r + dr) (c + dc) fuel
      else []

/-- The four line axes of `checkWin`, in source scan order:
horizontal `(0,1)`, vertical `(1,0)`, down-right `(1,1)`, down-left `(1,-1)`. -/
def directions : List (Int × Int) := [(0, 1), (1, 0), (1, 1), (1, -1)]

/-- The `for (const { dr, dc } of directions)` loop body of `checkWin`:
build the backward-then-forward line through the placed cell for each axis in
turn and stop at the first axis whose line reaches `winCondition`. -/
def checkWinAux (row col : Int) (pid : Nat) (board : Board) (winCondition : Nat) :
    List (Int × Int) → Bool × List Cell
  | [] => (false, [])
  | (dr, dc) :: rest =>
      let line : List Cell :=
        (runLine board pid (-dr) (-dc) row col (winCondition - 1)).reverse ++
          (row, col) :: runLine board pid dr dc row col (winCondition - 1)
      if winCondition ≤ line.length then (true, line)
      else checkWinAux row col pid board winCondition rest

/-- `checkWin(row, col, playerId, board, winCondition)` from `gameLogic.js`
(the `{ isWin, winningLine }` revision used by the controller). -/
def checkWin (row col : Int) (pid : Nat) (board : Board) (winCondition : Nat) :
    Bool × List Cell :=
  checkWinAux row col pid board winCondition directions

/-- Spec-side count for claim C3: the number of consecutive `pid`-owned cells
extending from `(row, col)` in direction `(dr, dc)`, capped at `cap` steps. -/
def dirCount (board : Board) (pid : Nat) (row col dr dc : Int) (cap : Nat) : Nat :=
  ((List.range cap).takeWhile
    (fun (i : Nat) =>
      decide (boardGet board
        (row + dr * ((i : Int) + 1), col + dc * ((i : Int) + 1)) = some pid))).length

/-- Spec-side winning line for claim C3: the contiguous backward-to-forward
sequence of cells through the placed cell, `b` cells behind and `f` ahead. -/
def specAxisLine (row col dr dc : Int) (b f : Nat) : List Cell :=
  ((List.range b).reverse.map
      (fun (i : Nat) =>
        ((row - dr * ((i : Int) + 1), col - dc * ((i : Int) + 1)) : Cell))) ++
    (row, col) ::
      ((List.range f).map
        (fun (i : Nat) =>
          ((row + dr * ((i : Int) + 1), col + dc * ((i : Int) + 1)) : Cell)))

/-- Spec-side scan for claim C3: take the axes in the fixed order and declare
a win on the first axis where `1 + forward + backward ≥ K`. -/
def specCheckWinAux (row col : Int) (pid : Nat) (board : Board) (winCondition : Nat) :
    List (Int × Int) → Bool × List Cell
  | [] => (false, [])
  | (dr, dc) :: rest =>
      let f := dirCount board pid row col dr dc (winCondition - 1)
      let b := dirCount board pid row col (-dr) (-dc) (winCondition - 1)
      if winCondition ≤ 1 + f + b then (true, specAxisLine row col dr dc b f)
      else specCheckWinAux row col pid board winCondition rest

/-- Spec-side `checkWin` built from the counts, per the wording of claim C3. -/
def specCheckWin (row col : Int) (pid : Nat) (board : Board) (winCondition : Nat) :
    Bool × List Cell :=
  specCheckWinAux row col pid board winCondition directions

/-- One entry of `gameState.players` (fields used by the validator:
`id` from `generatePlayers` — 1-based — and `cubesLeft`). -/
structure GPlayer where
  id : Nat
  cubesLeft : Nat
deriving Repr, DecidableEq

/-- The authoritative `gameState` built by `RoomManager.startGame` and
mutated by `handleMakeMove`.  The `winner` field stores the winning player's
id (the source stores the whole player object; only its identity matters). -/
structure GameState where
  board : Board
  currentPlayer : Nat
  players : List GPlayer
  winner : Option Nat
  winningLine : List Cell
  selectedCube : Option Cell
  winCondition : Nat
deriving Repr, DecidableEq

/-- `generatePlayers(count, names, cubesPerPlayer)` restricted to the fields
the validator reads: ids `1..count`, each with `cubesPerPlayer` cubes. -/
def generatePlayers (count cubesPerPlayer : Nat) : List GPlayer :=
  (List.range count).map (fun i => { id := i + 1, cubesLeft := cubesPerPlayer })

/-- The initial `gameState` of `RoomManager.startGame`. -/
def initialGameState (numPlayers cubesPerPlayer winCondition : Nat) : GameState :=
  { board := []
    currentPlayer := 0
    players := generatePlayers numPlayers cubesPerPlayer
    winner := none
    winningLine := []
    selectedCube := none
    winCondition := winCondition }

/-- `newPlayers[gameState.currentPlayer].cubesLeft--` on a copied list. -/
def decrementCubes : List GPlayer → Nat → List GPlayer
  | [], _ => []
  | p :: rest, 0 => { p with cubesLeft := p.cubesLeft - 1 } :: rest
  | p :: rest, n + 1 => p :: decrementCubes rest n

/-- `handlePlacementMove(gameState, row, col, key, playerId, socket)` from
`gameController.js`.  A rejection (`Except.error`) carries the emitted
`invalidMove` message and commits nothing; success returns the state the
caller copies back into `gameState` (the placement branch of `handleMakeMove`
copies `board`, `players`, `currentPlayer`, `winner`, `winningLine` and
leaves `selectedCube` untouched). -/
def handlePlacementMove (gs : GameState) (row col : Int) (key : Cell) (pid : Nat) :
    Except String GameState :=
  if isTruthy (boardGet gs.board key) then .error "Square already occupied"
  else
    if gs.board.isEmpty = false ∧ touchesAnyCube row col gs.board = false then
      .error "Must touch an existing cube (horizontally or vertically)"
    else
      let newBoard := boardSet gs.board key pid
      let newPlayers := decrementCubes gs.players gs.currentPlayer
      let res := checkWin row col pid newBoard gs.winCondition
      .ok { gs with
        board := newBoard
        players := newPlayers
        currentPlayer :=
          if res.1 then gs.currentPlayer
          else (gs.currentPlayer + 1) % gs.players.length
        winner := if res.1 then some pid else none
        winningLine := if res.1 then res.2 else [] }

/-- `handleMovementMove(gameState, key, playerId, selectedCube, socket)` from
`gameController.js` (the revision in which selecting a cube is accepted
unconditionally and the destination step checks only occupancy and adjacency
of the lifted board — it never invokes the connectivity check). -/
def handleMovementMove (gs : GameState) (key : Cell) (pid : Nat)
    (selectedCube : Option Cell) : Except String GameState :=
  match selectedCube with
  | some sc =>
      if isTruthy (boardGet gs.board key) then
        .error "Cannot move to occupied square"
      else
        let row := key.1
        let col := key.2
        let tempBoard := boardDel gs.board sc
        if tempBoard.isEmpty = false ∧ touchesAnyCube row col tempBoard = false then
          .error "Must touch an existing cube (horizontally or vertically)"
        else
          let newBoard := boardSet tempBoard key pid
          let res := checkWin row col pid newBoard gs.winCondition
          .ok { gs with
            board := newBoard
            currentPlayer :=
              if res.1 then gs.currentPlayer
              else (gs.currentPlayer + 1) % gs.players.length
            winner := if res.1 then some pid else none
            winningLine := if res.1 then res.2 else []
            selectedCube := none }
  | none =>
      if boardGet gs.board key = some pid then
        .ok { gs with selectedCube := some key }
      else if isTruthy (boardGet gs.board key) then
        .error "That\x27s not your cube!"
      else .error "Select one of your cubes to move first"

/-- `handleMakeMove` from `gameController.js`, from the turn-ownership check
down (the room/`started`/membership guards live in the room layer and reject
without touching the state).  `slot` is the requesting seat's index, found
via its socket.  `row = col = -1` is the reserved pass intent, handled before
phase detection.  Note the source consults `gameState.winner` nowhere. -/
def handleMakeMove (gs : GameState) (slot : Nat) (row col : Int)
    (selectedCube : Option Cell) : Except String GameState :=
  if slot ≠ gs.currentPlayer then .error "Not your turn"
  else if row = -1 ∧ col = -1 then
    .ok { gs with currentPlayer := (gs.currentPlayer + 1) % gs.players.length }
  else
    match gs.players.get? gs.currentPlayer with
    | none => .error "Internal error"
    | some actor =>
        let key := getCubeKey row col
        if actor.cubesLeft == 0 then handleMovementMove gs key actor.id selectedCube
        else handlePlacementMove gs row col key actor.id

/-- One submitted intent: acting seat plus the raw `{ row, col, selectedCube }`
payload of the `makeMove` message. -/
structure MoveIntent where
  slot : Nat
  row : Int
  col : Int
  selectedCube : Option Cell
deriving Repr, DecidableEq

/-- Run a sequence of intents, failing on the first rejection. -/
def applyMoves : GameState → List MoveIntent → Except String GameState
  | gs, [] => .ok gs
  | gs, m :: rest =>
      match handleMakeMove gs m.slot m.row m.col m.selectedCube with
      | .error e => .error e
      | .ok gs1 => applyMoves gs1 rest

/-- The occupied cells of a board, in entry order. -/
def cellsOf (b : Board) : List Cell := b.map (·.1)

/-- 4-directional adjacency of two cells. -/
def Adjacent (a b : Cell) : Prop :=
  (a.1 - b.1).natAbs + (a.2 - b.2).natAbs = 1

instance (a b : Cell) : Decidable (Adjacent a b) := by
  unfold Adjacent; infer_instance

/-- Reachability inside an occupied-cell set by 4-adjacency steps that stay
in the set. -/
def ReachIn (s : List Cell) (a b : Cell) : Prop :=
  Relation.ReflTransGen (fun x y => y ∈ s ∧ Adjacent x y) a b

/-- The occupied-cell set forms (at most) one 4-connected component: every
occupied cell reaches every other through occupied cells. -/
def OneComponent (s : List Cell) : Prop :=
  ∀ a ∈ s, ∀ b ∈ s, ReachIn s a b

/-! ### Association-list maps

JS `Map`s and plain-object maps of `RoomManager` are modelled as association
lists; `insertA` overwrites, matching `map.set` / `obj[k] = v`. -/

section AListOps

variable {α β : Type} [DecidableEq α]

/-- `map.get(k)` / `obj[k]`; `none` = `undefined`. -/
def lookupA : List (α × β) → α → Option β
  | [], _ => none
  | (k, v) :: rest, key => if k = key then some v else lookupA rest key

/-- `map.delete(k)` / `delete obj[k]`. -/
def removeA : List (α × β) → α → List (α × β)
  | [], _ => []
  | (k, v) :: rest, key =>
      if k = key then removeA rest key else (k, v) :: removeA rest key

/-- `map.set(k, v)` / `obj[k] = v`. -/
def insertA (l : List (α × β)) (key : α) (v : β) : List (α × β) :=
  (key, v) :: removeA l key

end AListOps

/-- Mutate the first list element satisfying `p` (models `list.find(p)` then
in-place mutation of the found object). -/
def replaceFirst {α : Type} (p : α → Bool) (f : α → α) : List α → List α
  | [] => []
  | a :: rest => if p a then f a :: rest else a :: replaceFirst p f rest

/-! ### RoomManager -/

/-- One entry of `room.players` (a seat). -/
structure RPlayer where
  socketId : String
  slot : Nat
  name : String
  ready : Bool
deriving Repr, DecidableEq

/-- A room as created by `RoomManager.createRoom`. -/
structure Room where
  code : String
  winCondition : Nat
  maxPlayers : Nat
  cubesPerPlayer : Nat
  players : List RPlayer
  gameState : Option GameState
  started : Bool
  createdAt : Nat
deriving Repr, DecidableEq

/-- One entry of `disconnectedPlayers[roomCode]` (keyed by slot):
the disconnect grace record. -/
structure DisconnectRecord where
  socketId : String
  disconnectTime : Nat
  timeout : Nat
  name : String
deriving Repr, DecidableEq

/-- The full mutable state of the `RoomManager` singleton.  `setTimeout`
handles are naturals drawn from `nextTimer`; `clearedTimers` records every
handle passed to `clearTimeout`, so that a cleared timer can never fire. -/
structure ManagerState where
  rooms : List (String × Room)
  playerRooms : List (String × String)
  disconnectedPlayers : List (String × List (Nat × DisconnectRecord))
  roomDeletionTimers : List (String × Nat)
  nextTimer : Nat
  clearedTimers : List Nat
deriving Repr, DecidableEq

/-- The state of the freshly constructed `RoomManager`. -/
def initialManagerState : ManagerState :=
  { rooms := [], playerRooms := [], disconnectedPlayers := []
    roomDeletionTimers := [], nextTimer := 0, clearedTimers := [] }

/-- `MIN_PLAYERS` from `roomManager.js`. -/
def MIN_PLAYERS : Nat := 2
/-- `MAX_PLAYERS` from `roomManager.js`. -/
def MAX_PLAYERS : Nat := 6
/-- `INITIAL_CUBES` from `roomManager.js`. -/
def INITIAL_CUBES : Nat := 14
/-- The `GRACE_PERIOD` local of the pre-start empty-room branch of
`leaveRoom`: `10 * 60 * 1000` ms before an emptied lobby is deleted. -/
def LOBBY_GRACE_PERIOD : Nat := 10 * 60 * 1000
/-- The `GRACE_PERIOD` local of the post-start branch of `leaveRoom`:
`10 * 60 * 1000` ms before a disconnected seat is reclaimed. -/
def GAME_GRACE_PERIOD : Nat := 10 * 60 * 1000

/-- `RoomManager.createRoom(winCondition, playerCount, cubesPerPlayer)`.
The collision-checked random `code` and the `Date.now()` timestamp are
parameters of the model. -/
def createRoom (st : ManagerState) (code : String)
    (winCondition playerCount cubesPerPlayer now : Nat) : ManagerState :=
  { st with rooms := (insertA st.rooms code
      { code := code
        winCondition := winCondition
        maxPlayers := min (max playerCount MIN_PLAYERS) MAX_PLAYERS
        cubesPerPlayer := cubesPerPlayer
        players := []
        gameState := none
        started := false
        createdAt := now }) }

/-- Result of `RoomManager.joinRoom`. -/
inductive JoinResult where
  | ok (playerSlot : Nat)
  | err (msg : String)
deriving Repr, DecidableEq

/-- `RoomManager.joinRoom(roomCode, socketId, playerName)`.  Note that a
pending deletion timer for the room is cancelled before any further check. -/
def joinRoom (st : ManagerState) (roomCode socketId playerName : String) :
    JoinResult × ManagerState :=
  match lookupA st.rooms roomCode with
  | none => (.err "Room not found", st)
  | some room =>
      let st1 :=
        match lookupA st.roomDeletionTimers roomCode with
        | some h =>
            { st with roomDeletionTimers := removeA st.roomDeletionTimers roomCode
                      clearedTimers := h :: st.clearedTimers }
        | none => st
      if room.started then (.err "Game already started", st1)
      else
        let cap := if room.maxPlayers == 0 then MAX_PLAYERS else room.maxPlayers
        if cap ≤ room.players.length then (.err "Room is full", st1)
        else
          match room.players.find? (fun p => p.socketId == socketId) with
          | some p => (.ok p.slot, st1)
          | none =>
              let slot := room.players.length
              let pl : RPlayer :=
                { socketId := socketId, slot := slot, name := playerName, ready := false }
              (.ok slot,
               { st1 with
                  rooms := insertA st1.rooms roomCode
                    { room with players := room.players ++ [pl] }
                  playerRooms := insertA st1.playerRooms socketId roomCode })

/-- Reassign `slot := idx` over a player list
(`room.players.forEach((p, idx) => { p.slot = idx })`). -/
def reindexFrom : Nat → List RPlayer → List RPlayer
  | _, [] => []
  | i, p :: rest => { p with slot := i } :: reindexFrom (i + 1) rest

/-- Result of `RoomManager.leaveRoom`. -/
inductive LeaveResult where
  | nullRes
  | preStart (deletionScheduled : Bool) (deletionIn : Option Nat)
  | inGame (gracePeriodDuration : Nat)
deriving Repr, DecidableEq

/-- `RoomManager.leaveRoom(socketId)` (`now` models `Date.now()`).
Pre-start: remove the seat, reindex slots, and if the room emptied, arm (or
re-arm, replacing the previous handle) a `LOBBY_GRACE_PERIOD` deletion timer.
Post-start: keep the seat (its `socketId` field untouched), drop the
socket-to-room binding, and file a `DisconnectRecord` whose timer fires
`removeDisconnectedPlayer` after `GAME_GRACE_PERIOD`. -/
def leaveRoom (st : ManagerState) (socketId : String) (now : Nat) :
    LeaveResult × ManagerState :=
  match lookupA st.playerRooms socketId with
  | none => (.nullRes, st)
  | some roomCode =>
      match lookupA st.rooms roomCode with
      | none => (.nullRes, st)
      | some room =>
          match room.players.find? (fun p => p.socketId == socketId) with
          | none => (.nullRes, st)
          | some player =>
              if room.started = false then
                let remaining := room.players.filter (fun p => !(p.socketId == socketId))
                let reindexed := reindexFrom 0 remaining
                let st1 :=
                  { st with
                      rooms := insertA st.rooms roomCode { room with players := reindexed }
                      playerRooms := removeA st.playerRooms socketId }
                if reindexed.isEmpty then
                  let cleared1 :=
                    match lookupA st1.roomDeletionTimers roomCode with
                    | some old => old :: st1.clearedTimers
                    | none => st1.clearedTimers
                  (.preStart true (some LOBBY_GRACE_PERIOD),
                   { st1 with
                      roomDeletionTimers :=
                        insertA st1.roomDeletionTimers roomCode st1.nextTimer
                      nextTimer := st1.nextTimer + 1
                      clearedTimers := cleared1 })
                else (.preStart false none, st1)
              else
                let record : DisconnectRecord :=
                  { socketId := socketId, disconnectTime := now
                    timeout := st.nextTimer, name := player.name }
                let recs := (lookupA st.disconnectedPlayers roomCode).getD []
                (.inGame GAME_GRACE_PERIOD,
                 { st with
                    disconnectedPlayers :=
                      insertA st.disconnectedPlayers roomCode
                        (insertA recs player.slot record)
                    playerRooms := removeA st.playerRooms socketId
                    nextTimer := st.nextTimer + 1 })

/-- `RoomManager.removeDisconnectedPlayer(roomCode, playerSlot)` — the grace
timer's callback: delete the seat (no reindexing), clean the record, and if
the room emptied, delete the room and all its disconnect bookkeeping. -/
def removeDisconnectedPlayer (st : ManagerState) (roomCode : String) (slot : Nat) :
    ManagerState :=
  match lookupA st.rooms roomCode with
  | none => st
  | some room =>
      let room1 := { room with players := room.players.filter (fun p => !(p.slot == slot)) }
      let st1 := { st with rooms := insertA st.rooms roomCode room1 }
      let st2 :=
        match lookupA st1.disconnectedPlayers roomCode with
        | none => st1
        | some recs =>
            if (lookupA recs slot).isSome then
              let recs1 := removeA recs slot
              if recs1.isEmpty then
                { st1 with disconnectedPlayers := removeA st1.disconnectedPlayers roomCode }
              else
                { st1 with disconnectedPlayers := insertA st1.disconnectedPlayers roomCode recs1 }
            else st1
      if room1.players.isEmpty then
        { st2 with
            rooms := removeA st2.rooms roomCode
            disconnectedPlayers := removeA st2.disconnectedPlayers roomCode }
      else st2

/-- Result of `RoomManager.reconnectPlayer`. -/
inductive ReconnectResult where
  | ok (playerSlot : Nat)
  | err (msg : String)
deriving Repr, DecidableEq

/-- `RoomManager.reconnectPlayer(roomCode, socketId, playerSlot)`: requires a
live `DisconnectRecord`; clears its timer, rebinds the seat's `socketId` and
drops the record. -/
def reconnectPlayer (st : ManagerState) (roomCode socketId : String) (slot : Nat) :
    ReconnectResult × ManagerState :=
  match lookupA st.rooms roomCode with
  | none => (.err "Room not found", st)
  | some room =>
      match (lookupA st.disconnectedPlayers roomCode).bind (fun recs => lookupA recs slot) with
      | none => (.err "No disconnected player found for this slot", st)
      | some record =>
          let cleared1 := record.timeout :: st.clearedTimers
          match room.players.find? (fun p => p.slot == slot) with
          | some _ =>
              let room1 :=
                { room with players :=
                    (replaceFirst (fun p => p.slot == slot)
                      (fun p => { p with socketId := socketId }) room.players) }
              let recs := (lookupA st.disconnectedPlayers roomCode).getD []
              let recs1 := removeA recs slot
              let dp1 :=
                if recs1.isEmpty then removeA st.disconnectedPlayers roomCode
                else insertA st.disconnectedPlayers roomCode recs1
              (.ok slot,
               { st with
                  rooms := insertA st.rooms roomCode room1
                  disconnectedPlayers := dp1
                  playerRooms := insertA st.playerRooms socketId roomCode
                  clearedTimers := cleared1 })
          | none =>
              (.err "Player slot was removed due to timeout",
               { st with clearedTimers := cleared1 })

/-- Result of `RoomManager.startGame`. -/
inductive StartResult where
  | ok
  | err (msg : String)
deriving Repr, DecidableEq

/-- `RoomManager.startGame(roomCode)`. -/
def startGame (st : ManagerState) (roomCode : String) : StartResult × ManagerState :=
  match lookupA st.rooms roomCode with
  | none => (.err "Room not found", st)
  | some room =>
      if room.players.length < MIN_PLAYERS then
        (.err "Need at least 2 players to start", st)
      else if room.started then (.err "Game already started", st)
      else
        let cubes := if room.cubesPerPlayer == 0 then INITIAL_CUBES else room.cubesPerPlayer
        let gs := initialGameState room.players.length cubes room.winCondition
        (.ok,
         { st with rooms := (insertA st.rooms roomCode
            { room with gameState := some gs, started := true }) })

/-- `RoomManager.updateGameState(roomCode, gameState)`. -/
def updateGameState (st : ManagerState) (roomCode : String) (gs : GameState) :
    ManagerState :=
  match lookupA st.rooms roomCode with
  | none => st
  | some room =>
      { st with rooms := insertA st.rooms roomCode { room with gameState := some gs } }

/-- `RoomManager.setPlayerReady(roomCode, playerSlot)`. -/
def setPlayerReady (st : ManagerState) (roomCode : String) (slot : Nat) : ManagerState :=
  match lookupA st.rooms roomCode with
  | none => st
  | some room =>
      match room.players.find? (fun p => p.slot == slot) with
      | none => st
      | some _ =>
          { st with rooms := (insertA st.rooms roomCode
              { room with players :=
                  (replaceFirst (fun p => p.slot == slot)
                    (fun p => { p with ready := true }) room.players) }) }

/-- `RoomManager.setPlayerNotReady(roomCode, playerSlot)`. -/
def setPlayerNotReady (st : ManagerState) (roomCode : String) (slot : Nat) : ManagerState :=
  match lookupA st.rooms roomCode with
  | none => st
  | some room =>
      match room.players.find? (fun p => p.slot == slot) with
      | none => st
      | some _ =>
          { st with rooms := (insertA st.rooms roomCode
              { room with players :=
                  (replaceFirst (fun p => p.slot == slot)
                    (fun p => { p with ready := false }) room.players) }) }

/-- Expiry of the room-deletion timer armed by the pre-start branch of
`leaveRoom`: enabled only while its handle is still referenced and not
cleared; the callback re-checks that the room exists, never started and is
still empty before deleting, then drops its own handle. -/
def fireRoomDeletionTimer (st : ManagerState) (roomCode : String) : ManagerState :=
  match lookupA st.roomDeletionTimers roomCode with
  | none => st
  | some h =>
      if h ∈ st.clearedTimers then st
      else
        let st1 :=
          match lookupA st.rooms roomCode with
          | some room =>
              if room.started = false ∧ room.players.isEmpty then
                { st with
                    rooms := removeA st.rooms roomCode
                    disconnectedPlayers := removeA st.disconnectedPlayers roomCode }
              else st
          | none => st
        { st1 with roomDeletionTimers := removeA st1.roomDeletionTimers roomCode }

/-- Expiry of a disconnect grace timer: the queued callback is
`removeDisconnectedPlayer(roomCode, playerSlot)`; it is pending exactly while
the record exists (reconnection both clears the timer and drops the record)
and its handle is uncleared. -/
def fireDisconnectTimer (st : ManagerState) (roomCode : String) (slot : Nat) :
    ManagerState :=
  match (lookupA st.disconnectedPlayers roomCode).bind (fun recs => lookupA recs slot) with
  | none => st
  | some record =>
      if record.timeout ∈ st.clearedTimers then st
      else removeDisconnectedPlayer st roomCode slot

/-- The manager states reachable from startup through the entry points the
server actually invokes (all mutating `RoomManager` methods reached from the
socket handlers) plus timer expiries.  `createRoom`'s code comes from the
collision-checked generator, hence the freshness hypothesis. -/
inductive Reachable : ManagerState → Prop where
  | init : Reachable initialManagerState
  | createRoom (st : ManagerState) (code : String) (w pc cp now : Nat) :
      Reachable st → lookupA st.rooms code = none →
      Reachable (createRoom st code w pc cp now)
  | joinRoom (st : ManagerState) (rc sid nm : String) :
      Reachable st → Reachable (joinRoom st rc sid nm).2
  | leaveRoom (st : ManagerState) (sid : String) (now : Nat) :
      Reachable st → Reachable (leaveRoom st sid now).2
  | reconnectPlayer (st : ManagerState) (rc sid : String) (slot : Nat) :
      Reachable st → Reachable (reconnectPlayer st rc sid slot).2
  | startGame (st : ManagerState) (rc : String) :
      Reachable st → Reachable (startGame st rc).2
  | updateGameState (st : ManagerState) (rc : String) (gs : GameState) :
      Reachable st → Reachable (updateGameState st rc gs)
  | setPlayerReady (st : ManagerState) (rc : String) (slot : Nat) :
      Reachable st → Reachable (setPlayerReady st rc slot)
  | setPlayerNotReady (st : ManagerState) (rc : String) (slot : Nat) :
      Reachable st → Reachable (setPlayerNotReady st rc slot)
  | fireRoomDeletionTimer (st : ManagerState) (rc : String) :
      Reachable st → Reachable (fireRoomDeletionTimer st rc)
  | fireDisconnectTimer (st : ManagerState) (rc : String) (slot : Nat) :
      Reachable st → Reachable (fireDisconnectTimer st rc slot)

/-- Well-formedness of the disconnect bookkeeping: every live
`DisconnectRecord` points at a started room that still holds a seat with the
recorded slot. -/
def RecordsOK (st : ManagerState) : Prop :=
  ∀ code recs slot record,
    lookupA st.disconnectedPlayers code = some recs →
    lookupA recs slot = some record →
    ∃ room, lookupA st.rooms code = some room ∧ room.started = true ∧
      ∃ p, p ∈ room.players ∧ p.slot = slot

/-! ### Concrete scenarios used by the claims -/

/-- A full game transcript for claim C1: two players with two cubes each,
win length 4.  Placements build the row `(0,0) (0,1) (0,2) (0,3)` with
alternating owners; then seat 0 selects its cube `(0,2)` and moves it to
`(1,0)`. -/
def C1moves : List MoveIntent :=
  [ { slot := 0, row := 0, col := 0, selectedCube := none }
  , { slot := 1, row := 0, col := 1, selectedCube := none }
  , { slot := 0, row := 0, col := 2, selectedCube := none }
  , { slot := 1, row := 0, col := 3, selectedCube := none }
  , { slot := 0, row := 0, col := 2, selectedCube := none }
  , { slot := 0, row := 1, col := 0, selectedCube := some (0, 2) } ]

/-- The state after running `C1moves` (all of which the validator accepts). -/
def C1finalState : GameState :=
  match applyMoves (initialGameState 2 2 4) C1moves with
  | .ok gs => gs
  | .error _ => initialGameState 2 2 4

/-- Transcript for claim C2: two players, four cubes each, win length 4.
Seat 0 builds the row `(0,0)..(0,3)` while seat 1 fills `(1,0)..(1,2)`;
the7th placement completes seat 0's line of four and sets `winner`. -/
def C2moves : List MoveIntent :=
  [ { slot := 0, row := 0, col := 0, selectedCube := none }
  , { slot := 1, row := 1, col := 0, selectedCube := none }
  , { slot := 0, row := 0, col := 1, selectedCube := none }
  , { slot := 1, row := 1, col := 1, selectedCube := none }
  , { slot := 0, row := 0, col := 2, selectedCube := none }
  , { slot := 1, row := 1, col := 2, selectedCube := none }
  , { slot := 0, row := 0, col := 3, selectedCube := none } ]

/-- The won state after `C2moves`: `winner = some 1`, turn frozen at seat 0. -/
def C2wonState : GameState :=
  match applyMoves (initialGameState 2 4 4) C2moves with
  | .ok gs => gs
  | .error _ => initialGameState 2 4 4

/-- The board of the win-line test of claim C3: `(0,0)..(0,3)`, all owned by
player id 1 (seat 0). -/
def C3exampleBoard : Board :=
  [((0, 0), 1), ((0, 1), 1), ((0, 2), 1), ((0, 3), 1)]

/-- A started 2-seat room `"R"` (seats `"s1"`, `"s2"`, one cube each),
reached from startup through the manager's own entry points. -/
def W6state : ManagerState :=
  (startGame
    ((joinRoom
      ((joinRoom (createRoom initialManagerState "R" 4 2 1 0) "R" "s1" "A").2)
      "R" "s2" "B").2)
    "R").2

/-- `W6state` after seat `"s1"` (slot 0) drops mid-game: a live
`DisconnectRecord` exists for slot 0 of room `"R"`. -/
def W7state : ManagerState := (leaveRoom W6state "s1" 100).2

/-- A pre-start lobby `"L"` with three seats `"a" "b" "c"` at slots 0, 1, 2. -/
def W9state : ManagerState :=
  (joinRoom
    ((joinRoom
      ((joinRoom (createRoom initialManagerState "L" 4 3 14 0) "L" "a" "A").2)
      "L" "b" "B").2)
    "L" "c" "C").2

/-- A pre-start lobby `"M"` with the single seat `"a"`. -/
def W10state : ManagerState :=
  (joinRoom (createRoom initialManagerState "M" 4 2 14 0) "M" "a" "A").2

/-- Fallback room value used when a lookup-defined room is absent. -/
def emptyRoom : Room :=
  { code := "", winCondition := 0, maxPlayers := 0, cubesPerPlayer := 0
    players := [], gameState := none, started := false, createdAt := 0 }

/-- The room `"R"` of `W6state`. -/
def W6room : Room :=
  match lookupA W6state.rooms "R" with
  | some r => r
  | none => emptyRoom

/-- The room `"L"` of `W9state`. -/
def W9room : Room :=
  match lookupA W9state.rooms "L" with
  | some r => r
  | none => emptyRoom

/-- The room `"M"` of `W10state`. -/
def W10room : Room :=
  match lookupA W10state.rooms "M" with
  | some r => r
  | none => emptyRoom

/-- The room `"M"` after its only seat leaves (empty, deletion timer armed). -/
def W10roomAfter : Room :=
  match lookupA (leaveRoom W10state "a" 0).2.rooms "M" with
  | some r => r
  | none => emptyRoom

/-- A fresh 2-player game with one cube per player (claims C4, C5, C8). -/
def C5state : GameState := initialGameState 2 1 4

/-- The state after seat 0 opens `C5state` by placing at `(5,5)`. -/
def C5result : GameState :=
  match handleMakeMove C5state 0 5 5 none with
  | .ok gs => gs
  | .error _ => C5state

/-- The state after seat 0 opens `C5state` by placing at `(25,25)` — a cell
outside the declared 20×20 grid, which the validator accepts (claim C8). -/
def C8result : GameState :=
  match handleMakeMove C5state 0 25 25 none with
  | .ok gs => gs
  | .error _ => C5state

/-! ## Theorems -/

theorem lookupA_removeA {α β : Type} [DecidableEq α] (l : List (α × β)) (k key : α) :
    lookupA (removeA l k) key = if k = key then none else lookupA l key := by
  induction l with
  | nil => simp [removeA, lookupA]
  | cons hd tl ih =>
      obtain ⟨a, b⟩ := hd
      by_cases hak : a = k
      · subst hak
        simp only [removeA, if_pos rfl, ih, lookupA]
        by_cases h2 : a = key
        · subst h2; simp [ih]
        · simp [h2, ih]
      · simp only [removeA, if_neg hak, lookupA]
        by_cases h2 : a = key
        · subst h2
          have : k ≠ a := fun h => hak h.symm
          simp [this]
        · simp [h2, ih]

theorem lookupA_insertA {α β : Type} [DecidableEq α] (l : List (α × β)) (k key : α) (v : β) :
    lookupA (insertA l k v) key = if k = key then some v else lookupA l key := by
  simp only [insertA, lookupA, lookupA_removeA]
  by_cases h : k = key <;> simp [h]

/-- Claim C2.  The code violates the frozen-after-win invariant: in the won
state reached by `C2moves` (seat 0 just completed a line of four, so
`winner = some 1` and the turn stayed at seat 0), the winning seat can
submit the reserved pass intent `row = col = -1`, which `handleMakeMove`
accepts without ever consulting `winner` and which advances the active-turn
index from 0 to 1. -/
theorem claim_C2_pass_after_win_mutates_turn :
    applyMoves (initialGameState 2 4 4) C2moves = .ok C2wonState ∧
    C2wonState.winner = some 1 ∧
    C2wonState.currentPlayer = 0 ∧
    handleMakeMove C2wonState 0 (-1) (-1) none =
      .ok { C2wonState with currentPlayer := 1 } :=
  ⟨rfl, rfl, rfl, rfl⟩

/-- Claim C8.  The server declares `GRID_SIZE = 20` but never bounds-checks a
move: on the fresh game `C5state` the placement at `(25, 25)` is accepted
and introduces the out-of-bounds key `(25, 25)` into the occupied-cell map. -/
theorem claim_C8_out_of_bounds_key_accepted :
    handleMakeMove C5state 0 25 25 none = .ok C8result ∧
    boardGet C8result.board (25, 25) = some 1 ∧
    ¬ inBounds ((25 : Int), (25 : Int)) :=
  ⟨rfl, rfl, by decide⟩

/-- Claim C1.  The code violates the connectivity invariant: every intent in
`C1moves` is accepted (the sequence ends with a movement-phase destination
move whose resulting board the validator never connectivity-checks), yet the
resulting occupied-cell set `{(1,0), (0,3), (0,1), (0,0)}` does not form one
4-connected component — `(0,3)` is isolated from `(0,0)`. -/
theorem claim_C1_accepted_move_splits_board :
    applyMoves (initialGameState 2 2 4) C1moves = .ok C1finalState ∧
    ((0, 0) : Cell) ∈ cellsOf C1finalState.board ∧
    ((0, 3) : Cell) ∈ cellsOf C1finalState.board ∧
    ¬ OneComponent (cellsOf C1finalState.board) := by
  refine ⟨rfl, by decide, by decide, ?_⟩
  intro h
  have h03 : ReachIn (cellsOf C1finalState.board) (0, 0) (0, 3) :=
    h (0, 0) (by decide) (0, 3) (by decide)
  have key : ∀ x ∈ ([(0, 0), (0, 1), (1, 0)] : List Cell),
      ∀ y ∈ cellsOf C1finalState.board, Adjacent x y →
        y ∈ ([(0, 0), (0, 1), (1, 0)] : List Cell) := by decide
  have closed : ∀ z, ReachIn (cellsOf C1finalState.board) (0, 0) z →
      z ∈ ([(0, 0), (0, 1), (1, 0)] : List Cell) := by
    intro z hz
    induction hz with
    | refl => decide
    | tail hab hbc ih => exact key _ ih _ hbc.1 hbc.2
  exact absurd (closed _ h03) (by decide)

/-- On the acting seat's turn, a non-pass intent in the placement phase
reduces to `handlePlacementMove`. -/
theorem handleMakeMove_placement_eq (gs : GameState) (slot : Nat) (row col : Int)
    (sc : Option Cell) (actor : GPlayer)
    (hslot : slot = gs.currentPlayer)
    (hactor : gs.players.get? gs.currentPlayer = some actor)
    (hphase : actor.cubesLeft ≠ 0)
    (hpass : ¬(row = -1 ∧ col = -1)) :
    handleMakeMove gs slot row col sc =
      handlePlacementMove gs row col (getCubeKey row col) actor.id := by
  subst hslot
  unfold handleMakeMove
  rw [if_neg (by simp), if_neg hpass, hactor]
  have hb : (actor.cubesLeft == 0) = false := by simp [hphase]
  simp [hb]

/-- On the acting seat's turn, a non-pass intent in the movement phase
reduces to `handleMovementMove`. -/
theorem handleMakeMove_movement_eq (gs : GameState) (slot : Nat) (row col : Int)
    (sc : Option Cell) (actor : GPlayer)
    (hslot : slot = gs.currentPlayer)
    (hactor : gs.players.get? gs.currentPlayer = some actor)
    (hphase : actor.cubesLeft = 0)
    (hpass : ¬(row = -1 ∧ col = -1)) :
    handleMakeMove gs slot row col sc =
      handleMovementMove gs (getCubeKey row col) actor.id sc := by
  subst hslot
  unfold handleMakeMove
  rw [if_neg (by simp), if_neg hpass, hactor]
  have hb : (actor.cubesLeft == 0) = true := by simp [hphase]
  simp [hb]

/-- Claim C4.  On the acting seat's turn in the placement phase (remaining
cubes > 0, intent not the reserved pass), the intent is accepted exactly when
the target cell is unoccupied and either the board is empty or the target is
4-adjacent to some occupied cell of any owner; every rejection carries one of
the two named placement reasons (the embedding returns the untouched state on
`Except.error`, matching the source, which mutates nothing before these
checks pass).  The `hids` hypothesis records that owner ids are nonzero
(`generatePlayers` uses `i + 1`), so JS truthiness of `board[key]` coincides
with presence. -/
theorem claim_C4_placement_legality (gs : GameState) (slot : Nat) (row col : Int)
    (sc : Option Cell) (actor : GPlayer)
    (hslot : slot = gs.currentPlayer)
    (hactor : gs.players.get? gs.currentPlayer = some actor)
    (hphase : actor.cubesLeft ≠ 0)
    (hpass : ¬(row = -1 ∧ col = -1))
    (hids : ∀ k v, boardGet gs.board k = some v → v ≠ 0) :
    ((∃ gs1, handleMakeMove gs slot row col sc = .ok gs1) ↔
      (boardGet gs.board (row, col) = none ∧
        (gs.board = [] ∨ touchesAnyCube row col gs.board = true))) ∧
    (∀ e, handleMakeMove gs slot row col sc = .error e →
      e = "Square already occupied" ∨
      e = "Must touch an existing cube (horizontally or vertically)") := by
  rw [handleMakeMove_placement_eq gs slot row col sc actor hslot hactor hphase hpass]
  unfold handlePlacementMove
  have hkey : getCubeKey row col = ((row, col) : Cell) := rfl
  by_cases h1 : isTruthy (boardGet gs.board (getCubeKey row col)) = true
  · rw [if_pos h1]
    constructor
    · constructor
      · rintro ⟨gs1, h⟩; cases h
      · rintro ⟨hnone, -⟩
        rw [hkey, hnone] at h1
        cases h1
    · intro e he
      injection he with h
      exact Or.inl h.symm
  · have hB : boardGet gs.board (getCubeKey row col) = none := by
      cases hx : boardGet gs.board (getCubeKey row col) with
      | none => rfl
      | some v =>
          exact absurd (by rw [hx]; simp [isTruthy, hids _ _ hx]) h1
    rw [if_neg h1]
    by_cases hcond : gs.board.isEmpty = false ∧ touchesAnyCube row col gs.board = false
    · rw [if_pos hcond]
      constructor
      · constructor
        · rintro ⟨gs1, h⟩; cases h
        · rintro ⟨-, hadj⟩
          rcases hadj with hemp | htouch
          · rw [hemp] at hcond; simp [List.isEmpty] at hcond
          · rw [htouch] at hcond; simp at hcond
      · intro e he
        injection he with h
        exact Or.inr h.symm
    · rw [if_neg hcond]
      constructor
      · constructor
        · intro _
          refine ⟨by rw [← hkey]; exact hB, ?_⟩
          by_cases hemp : gs.board.isEmpty
          · exact Or.inl (by simpa [List.isEmpty_iff] using hemp)
          · right
            rcases Bool.eq_false_or_eq_true (touchesAnyCube row col gs.board) with h | h
            · exact h
            · exact absurd ⟨by simpa using hemp, h⟩ hcond
        · intro _; exact ⟨_, rfl⟩
      · intro e he; cases he

/-- Witness for claim C4: on the fresh game `C5state`, seat 0's opening
placement at `(5, 5)` is accepted (empty board, no adjacency required). -/
theorem claim_C4_witness :
    ((∃ gs1, handleMakeMove C5state 0 5 5 none = .ok gs1) ↔
      (boardGet C5state.board (5, 5) = none ∧
        (C5state.board = [] ∨ touchesAnyCube 5 5 C5state.board = true))) ∧
    (∀ e, handleMakeMove C5state 0 5 5 none = .error e →
      e = "Square already occupied" ∨
      e = "Must touch an existing cube (horizontally or vertically)") :=
  claim_C4_placement_legality C5state 0 5 5 none { id := 1, cubesLeft := 1 }
    rfl rfl (by decide) (by decide)
    (by intro k v h; simp [C5state, initialGameState, boardGet] at h)

/-- Claim C5.  Every accepted placement or movement-destination move (the
reserved pass and the selection sub-step excluded by the hypotheses) either
wins — leaving the active-turn index unchanged and `winner` set — or does not
win, in which case the index advances to `(old + 1) mod seatCount`. -/
theorem claim_C5_turn_rotation (gs : GameState) (slot : Nat) (row col : Int)
    (sc : Option Cell) (actor : GPlayer) (gs1 : GameState)
    (hactor : gs.players.get? gs.currentPlayer = some actor)
    (hpass : ¬(row = -1 ∧ col = -1))
    (hdest : actor.cubesLeft = 0 → sc ≠ none)
    (hok : handleMakeMove gs slot row col sc = .ok gs1) :
    (gs1.winner = none →
      gs1.currentPlayer = (gs.currentPlayer + 1) % gs.players.length) ∧
    (gs1.winner ≠ none → gs1.currentPlayer = gs.currentPlayer) := by
  by_cases hs : slot = gs.currentPlayer
  · by_cases hphase : actor.cubesLeft = 0
    · rw [handleMakeMove_movement_eq gs slot row col sc actor hs hactor hphase hpass] at hok
      obtain ⟨c, rfl⟩ := Option.ne_none_iff_exists'.mp (hdest hphase)
      simp only [handleMovementMove] at hok
      split_ifs at hok with h1 h2 h3
      · cases hok
        exact ⟨fun hw => absurd hw (by simp), fun _ => rfl⟩
      · cases hok
        exact ⟨fun _ => rfl, fun hw => absurd rfl hw⟩
    · rw [handleMakeMove_placement_eq gs slot row col sc actor hs hactor hphase hpass] at hok
      simp only [handlePlacementMove] at hok
      split_ifs at hok with h1 h2 h3
      · cases hok
        exact ⟨fun hw => absurd hw (by simp), fun _ => rfl⟩
      · cases hok
        exact ⟨fun _ => rfl, fun hw => absurd rfl hw⟩
  · unfold handleMakeMove at hok
    rw [if_pos hs] at hok
    cases hok

/-- Witness for claim C5: seat 0's opening placement of `C5state` at `(5,5)`
does not win, and the turn advances from 0 to `(0 + 1) % 2 = 1`. -/
theorem claim_C5_witness :
    (C5result.winner = none →
      C5result.currentPlayer = (C5state.currentPlayer + 1) % C5state.players.length) ∧
    (C5result.winner ≠ none → C5result.currentPlayer = C5state.currentPlayer) :=
  claim_C5_turn_rotation C5state 0 5 5 none { id := 1, cubesLeft := 1 } C5result
    rfl (by decide) (fun h => absurd h (by decide)) rfl

theorem takeWhile_extend {α : Type} (p : α → Bool) :
    ∀ l : List α, ∃ t, l.takeWhile p ++ t = l := by
  intro l
  induction l with
  | nil => exact ⟨[], rfl⟩
  | cons a l ih =>
      rw [List.takeWhile_cons]
      by_cases h : p a = true
      · rw [if_pos h]
        obtain ⟨t, ht⟩ := ih
        exact ⟨t, by rw [List.cons_append, ht]⟩
      · rw [if_neg h]
        exact ⟨a :: l, rfl⟩

theorem takeWhile_range_normal (p : Nat → Bool) (n : Nat) :
    (List.range n).takeWhile p = List.range ((List.range n).takeWhile p).length := by
  obtain ⟨t, ht⟩ := takeWhile_extend p (List.range n)
  have hlen : ((List.range n).takeWhile p).length ≤ n := by
    have h2 := congrArg List.length ht
    simp only [List.length_append, List.length_range] at h2
    omega
  have h1 := List.take_left ((List.range n).takeWhile p) t
  rw [ht] at h1
  generalize hm : ((List.range n).takeWhile p).length = m at h1 hlen ⊢
  rw [← h1, List.take_range, min_eq_left hlen]

theorem takeWhileCongr {α : Type} {p q : α → Bool} :
    ∀ l : List α, (∀ x ∈ l, p x = q x) → l.takeWhile p = l.takeWhile q := by
  intro l
  induction l with
  | nil => intro _; rfl
  | cons a l ih =>
      intro h
      rw [List.takeWhile_cons, List.takeWhile_cons, h a (by simp),
        ih (fun x hx => h x (by simp [hx]))]

/-- The scan loop of `checkWin` collects exactly the cells at offsets
`1, 2, …` along the axis for as long as they are owned by `pid`, capped at
the fuel. -/
theorem runLine_eq (board : Board) (pid : Nat) (dr dc : Int) :
    ∀ (n : Nat) (r c : Int),
      runLine board pid dr dc r c n =
        ((List.range n).takeWhile
            (fun (i : Nat) =>
              decide (boardGet board
                (r + dr * ((i : Int) + 1), c + dc * ((i : Int) + 1)) = some pid))).map
          (fun (i : Nat) =>
            ((r + dr * ((i : Int) + 1), c + dc * ((i : Int) + 1)) : Cell)) := by
  intro n
  induction n with
  | zero => intro r c; rfl
  | succ n ih =>
      intro r c
      have hcell0 :
          ((r + dr * (((0 : Nat) : Int) + 1), c + dc * (((0 : Nat) : Int) + 1)) : Cell)
            = ((r + dr, c + dc) : Cell) := by
        simp only [Nat.cast_zero, zero_add, mul_one]
      rw [List.range_succ_eq_map, List.takeWhile_cons]
      simp only [runLine]
      by_cases hb : boardGet board (r + dr, c + dc) = some pid
      · rw [if_pos hb, if_pos (by rw [hcell0]; simpa using hb)]
        rw [List.map_cons, hcell0]
        congr 1
        rw [List.takeWhile_map, List.map_map, ih (r + dr) (c + dc)]
        have hpred : ∀ x ∈ List.range n,
            ((fun (i : Nat) =>
                decide (boardGet board
                  (r + dr * ((i : Int) + 1), c + dc * ((i : Int) + 1)) = some pid)) ∘ Nat.succ) x =
              (fun (i : Nat) =>
                decide (boardGet board
                  ((r + dr) + dr * ((i : Int) + 1), (c + dc) + dc * ((i : Int) + 1)) = some pid)) x := by
          intro x _
          simp only [Function.comp_apply]
          have hxcell :
              ((r + dr * (((Nat.succ x : Nat) : Int) + 1),
                c + dc * (((Nat.succ x : Nat) : Int) + 1)) : Cell) =
                (((r + dr) + dr * ((x : Int) + 1), (c + dc) + dc * ((x : Int) + 1)) : Cell) := by
            simp only [Prod.mk.injEq]
            constructor <;> push_cast <;> ring
          rw [hxcell]
        rw [takeWhileCongr _ hpred]
        apply List.map_congr_left
        intro a _
        simp only [Function.comp_apply, Prod.mk.injEq]
        constructor <;> push_cast <;> ring
      · rw [if_neg hb, if_neg (by rw [hcell0]; simpa using hb)]
        rfl

/-- Per-axis agreement: the line the source builds for an axis is the
spec-side contiguous backward-to-forward line for the two capped counts. -/
theorem axis_line_eq (board : Board) (pid : Nat) (row col dr dc : Int) (K : Nat) :
    (runLine board pid (-dr) (-dc) row col (K - 1)).reverse ++
        (row, col) :: runLine board pid dr dc row col (K - 1) =
      specAxisLine row col dr dc
        (dirCount board pid row col (-dr) (-dc) (K - 1))
        (dirCount board pid row col dr dc (K - 1)) := by
  unfold specAxisLine dirCount
  rw [runLine_eq, runLine_eq]
  congr 1
  · conv_lhs => rw [takeWhile_range_normal]
    rw [← List.map_reverse]
    apply List.map_congr_left
    intro a _
    simp only [Prod.mk.injEq]
    constructor <;> ring
  · congr 1
    conv_lhs => rw [takeWhile_range_normal]

/-- The axis scan of `checkWin` agrees with the spec-side scan on every
direction list. -/
theorem checkWinAux_eq (row col : Int) (pid : Nat) (board : Board) (K : Nat) :
    ∀ dirs : List (Int × Int),
      checkWinAux row col pid board K dirs = specCheckWinAux row col pid board K dirs := by
  intro dirs
  induction dirs with
  | nil => rfl
  | cons d rest ih =>
      obtain ⟨dr, dc⟩ := d
      simp only [checkWinAux, specCheckWinAux]
      rw [axis_line_eq]
      have hlen : (specAxisLine row col dr dc
          (dirCount board pid row col (-dr) (-dc) (K - 1))
          (dirCount board pid row col dr dc (K - 1))).length =
          dirCount board pid row col (-dr) (-dc) (K - 1) + 1 +
            dirCount board pid row col dr dc (K - 1) := by
        simp [specAxisLine]
        try omega
      by_cases hc : K ≤ 1 + dirCount board pid row col dr dc (K - 1) +
          dirCount board pid row col (-dr) (-dc) (K - 1)
      · rw [if_pos (by rw [hlen]; omega), if_pos hc]
      · rw [if_neg (by rw [hlen]; omega), if_neg hc]
        exact ih

/-- Claim C3.  `checkWin` scans the four axes in the fixed order horizontal,
vertical, down-right, down-left; on the first axis whose capped
forward/backward counts satisfy `1 + f + b ≥ K` it returns `won = true`
together with the contiguous backward-to-forward line through the placed
cell; otherwise `(false, [])`.  Concretely, with all of `(0,0)…(0,3)` owned
by player 1, `K = 4`, and last placement `(0,3)`, it returns `won = true`
with line `[(0,0),(0,1),(0,2),(0,3)]`. -/
theorem claim_C3_checkWin_spec :
    (∀ (row col : Int) (pid : Nat) (board : Board) (K : Nat),
        checkWin row col pid board K = specCheckWin row col pid board K) ∧
    checkWin 0 3 1 C3exampleBoard 4 = (true, [(0, 0), (0, 1), (0, 2), (0, 3)]) :=
  ⟨fun row col pid board K => checkWinAux_eq row col pid board K directions, by decide⟩

theorem reindexFrom_pairs (ps : List RPlayer) :
    ∀ i, (reindexFrom i ps).map (fun p => (p.socketId, p.name)) =
      ps.map (fun p => (p.socketId, p.name)) := by
  induction ps with
  | nil => intro i; rfl
  | cons p rest ih => intro i; simp [reindexFrom, ih]

theorem reindexFrom_socketIds (ps : List RPlayer) :
    ∀ i, (reindexFrom i ps).map (fun p => p.socketId) = ps.map (fun p => p.socketId) := by
  induction ps with
  | nil => intro i; rfl
  | cons p rest ih => intro i; simp [reindexFrom, ih]

theorem reindexFrom_slot :
    ∀ (ps : List RPlayer) (i k : Nat) (p : RPlayer),
      (reindexFrom i ps).get? k = some p → p.slot = i + k := by
  intro ps
  induction ps with
  | nil => intro i k p h; cases h
  | cons q rest ih =>
      intro i k p h
      cases k with
      | zero =>
          simp only [reindexFrom, List.get?] at h
          cases h
          rfl
      | succ k =>
          simp only [reindexFrom, List.get?] at h
          have := ih (i + 1) k p h
          omega

/-- Claim C9.  A pre-start leave removes the leaving seat immediately: the
remaining seats keep their connection identity and name in their original
relative order, and their slot indices are reassigned to the contiguous range
`0..n-1`. -/
theorem claim_C9_prestart_leave_compacts (st : ManagerState) (sid : String) (now : Nat)
    (code : String) (room : Room) (player : RPlayer)
    (hpr : lookupA st.playerRooms sid = some code)
    (hrm : lookupA st.rooms code = some room)
    (hns : room.started = false)
    (hfind : room.players.find? (fun p => p.socketId == sid) = some player) :
    ∃ room1, lookupA (leaveRoom st sid now).2.rooms code = some room1 ∧
      room1.players.find? (fun p => p.socketId == sid) = none ∧
      room1.players.map (fun p => (p.socketId, p.name)) =
        (room.players.filter (fun p => !(p.socketId == sid))).map
          (fun p => (p.socketId, p.name)) ∧
      (∀ k p, room1.players.get? k = some p → p.slot = k) := by
  have hrooms : (leaveRoom st sid now).2.rooms =
      insertA st.rooms code
        { room with players :=
            reindexFrom 0 (room.players.filter (fun p => !(p.socketId == sid))) } := by
    simp only [leaveRoom, hpr, hrm, hfind, hns, if_pos]
    split <;> rfl
  refine ⟨_, by rw [hrooms, lookupA_insertA, if_pos rfl], ?_, ?_, ?_⟩
  · rw [List.find?_eq_none]
    intro x hx
    have hmem : x.socketId ∈
        (reindexFrom 0 (room.players.filter (fun p => !(p.socketId == sid)))).map
          (fun p => p.socketId) :=
      List.mem_map.mpr ⟨x, hx, rfl⟩
    rw [reindexFrom_socketIds] at hmem
    obtain ⟨q, hq, hqx⟩ := List.mem_map.mp hmem
    have := List.of_mem_filter hq
    simp only [Bool.not_eq_true'] at this
    rw [← hqx]
    simp [this]
  · exact reindexFrom_pairs _ 0
  · intro k p h
    simpa using reindexFrom_slot _ 0 k p h

/-- Witness for claim C9: in the three-seat lobby `W9state`, seat `"b"`
(slot 1) leaves; the two remaining seats keep identities `"a"`, `"c"` in
order and are re-indexed to slots 0 and 1. -/
theorem claim_C9_witness :
    ∃ room1, lookupA (leaveRoom W9state "b" 0).2.rooms "L" = some room1 ∧
      room1.players.find? (fun p => p.socketId == "b") = none ∧
      room1.players.map (fun p => (p.socketId, p.name)) =
        (W9room.players.filter (fun p => !(p.socketId == "b"))).map
          (fun p => (p.socketId, p.name)) ∧
      (∀ k p, room1.players.get? k = some p → p.slot = k) :=
  claim_C9_prestart_leave_compacts W9state "b" 0 "L" W9room
    { socketId := "b", slot := 1, name := "B", ready := false } rfl rfl rfl rfl

/-- Effect of the grace-timer callback on the rooms map: the seat with the
expired slot is filtered out (slots of survivors untouched); if that empties
the room, the room and its disconnect records are deleted. -/
theorem removeDisconnectedPlayer_effect (stX : ManagerState) (code : String) (slot : Nat)
    (roomX : Room) (hrmX : lookupA stX.rooms code = some roomX) :
    (roomX.players.filter (fun p => !(p.slot == slot)) ≠ [] →
      lookupA (removeDisconnectedPlayer stX code slot).rooms code =
        some { roomX with players := roomX.players.filter (fun p => !(p.slot == slot)) }) ∧
    (roomX.players.filter (fun p => !(p.slot == slot)) = [] →
      lookupA (removeDisconnectedPlayer stX code slot).rooms code = none ∧
      lookupA (removeDisconnectedPlayer stX code slot).disconnectedPlayers code = none) := by
  simp only [removeDisconnectedPlayer, hrmX]
  constructor
  · intro hne
    have hempF :
        ¬ (({ roomX with players := roomX.players.filter (fun p => !(p.slot == slot)) }
            : Room).players.isEmpty = true) := by
      rw [List.isEmpty_iff]
      exact hne
    rw [if_neg hempF]
    repeat' split
    all_goals simp [lookupA_insertA]
  · intro hemp
    have hempT :
        (({ roomX with players := roomX.players.filter (fun p => !(p.slot == slot)) }
            : Room).players.isEmpty = true) := by
      rw [List.isEmpty_iff]
      exact hemp
    rw [if_pos hempT]
    constructor
    all_goals repeat' split
    all_goals simp [lookupA_removeA]

/-- Claim C6 (amended).  When a seat's transport drops after the room
started: the seat stays in `room.players` at its slot with its recorded
connection identity left stale (the rooms map is untouched entirely); the
socket-to-room binding is removed; a `DisconnectRecord` is filed for the slot
with a fresh timer handle and the reported grace duration is
`GAME_GRACE_PERIOD = 10 minutes` (not 2); expiry of that timer — the
`removeDisconnectedPlayer` callback — deletes the seat by filtering its slot
out without reindexing the survivors, and if that empties the room, deletes
the room together with its residual disconnect records. -/
theorem claim_C6_postStart_disconnect (st : ManagerState) (sid : String) (now : Nat)
    (code : String) (room : Room) (player : RPlayer)
    (hpr : lookupA st.playerRooms sid = some code)
    (hrm : lookupA st.rooms code = some room)
    (hst : room.started = true)
    (hfind : room.players.find? (fun p => p.socketId == sid) = some player) :
    (leaveRoom st sid now).1 = .inGame GAME_GRACE_PERIOD ∧
    GAME_GRACE_PERIOD = 10 * 60 * 1000 ∧
    (leaveRoom st sid now).2.rooms = st.rooms ∧
    lookupA (leaveRoom st sid now).2.playerRooms sid = none ∧
    ((lookupA (leaveRoom st sid now).2.disconnectedPlayers code).bind
        (fun recs => lookupA recs player.slot)) =
      some { socketId := sid, disconnectTime := now
             timeout := st.nextTimer, name := player.name } ∧
    (∀ (stX : ManagerState) (roomX : Room), lookupA stX.rooms code = some roomX →
      (roomX.players.filter (fun p => !(p.slot == player.slot)) ≠ [] →
        lookupA (removeDisconnectedPlayer stX code player.slot).rooms code =
          some { roomX with
                  players := roomX.players.filter (fun p => !(p.slot == player.slot)) }) ∧
      (roomX.players.filter (fun p => !(p.slot == player.slot)) = [] →
        lookupA (removeDisconnectedPlayer stX code player.slot).rooms code = none ∧
        lookupA (removeDisconnectedPlayer stX code player.slot).disconnectedPlayers code
          = none)) := by
  have hred : leaveRoom st sid now =
      (.inGame GAME_GRACE_PERIOD,
       { st with
          disconnectedPlayers :=
            insertA st.disconnectedPlayers code
              (insertA ((lookupA st.disconnectedPlayers code).getD []) player.slot
                { socketId := sid, disconnectTime := now
                  timeout := st.nextTimer, name := player.name })
          playerRooms := removeA st.playerRooms sid
          nextTimer := st.nextTimer + 1 }) := by
    simp only [leaveRoom, hpr, hrm, hfind, hst]
    rfl
  refine ⟨by rw [hred], rfl, by rw [hred], ?_, ?_, ?_⟩
  · rw [hred]
    simp [lookupA_removeA]
  · rw [hred]
    simp [lookupA_insertA]
  · intro stX roomX hrmX
    exact removeDisconnectedPlayer_effect stX code player.slot roomX hrmX

/-- Counterexample to claim C6 as stated: on the started room `W6state`,
the disconnect of `"s1"` reports a grace duration of `600000` ms (10
minutes), not the claimed 2 minutes (`120000` ms) — and the seat's stored
connection identity remains the stale `"s1"` rather than being cleared. -/
theorem claim_C6_counterexample :
    (leaveRoom W6state "s1" 0).1 = LeaveResult.inGame 600000 ∧
    (leaveRoom W6state "s1" 0).1 ≠ LeaveResult.inGame (2 * 60 * 1000) ∧
    (∃ room1, lookupA (leaveRoom W6state "s1" 0).2.rooms "R" = some room1 ∧
      (room1.players.find? (fun p => p.slot == 0)).map (fun p => p.socketId) =
        some "s1") :=
  ⟨rfl, by decide, ⟨W6room, rfl, rfl⟩⟩

/-- Witness for the amended claim C6, on the started room `W6state`. -/
theorem claim_C6_witness :
    (leaveRoom W6state "s1" 0).1 = LeaveResult.inGame GAME_GRACE_PERIOD ∧
    (leaveRoom W6state "s1" 0).2.rooms = W6state.rooms := by
  have h := claim_C6_postStart_disconnect W6state "s1" 0 "R" W6room
    { socketId := "s1", slot := 0, name := "A", ready := false } rfl rfl rfl rfl
  exact ⟨h.1, h.2.2.1⟩

theorem insertA_self_exists {α β : Type} [DecidableEq α]
    (l : List (α × β)) (k : α) (v : β) :
    ∃ r, lookupA (insertA l k v) k = some r :=
  ⟨v, by rw [lookupA_insertA, if_pos rfl]⟩

/-- Claim C10.  (a) When the last seat leaves a not-yet-started room, the
room is kept and a deletion timer is armed under a fresh handle — replacing
any previously armed handle for that room, so re-arming is idempotent.
(b) Any join of an existing room removes the pending deletion-timer entry
(whatever else the join decides), the room stays in the registry, and the
subsequent timer-expiry event is a no-op, so a join that executes before the
timer fires always leaves the room alive. -/
theorem claim_C10_deletion_timer_vs_join :
    (∀ (st : ManagerState) (sid : String) (now : Nat) (code : String)
        (room : Room) (player : RPlayer),
      lookupA st.playerRooms sid = some code →
      lookupA st.rooms code = some room →
      room.started = false →
      room.players.find? (fun p => p.socketId == sid) = some player →
      room.players.filter (fun p => !(p.socketId == sid)) = [] →
      lookupA (leaveRoom st sid now).2.roomDeletionTimers code = some st.nextTimer ∧
      (∃ roomK, lookupA (leaveRoom st sid now).2.rooms code = some roomK) ∧
      (leaveRoom st sid now).1 = .preStart true (some LOBBY_GRACE_PERIOD)) ∧
    (∀ (st : ManagerState) (code sid nm : String) (room : Room),
      lookupA st.rooms code = some room →
      lookupA (joinRoom st code sid nm).2.roomDeletionTimers code = none ∧
      (∃ roomJ, lookupA (joinRoom st code sid nm).2.rooms code = some roomJ) ∧
      fireRoomDeletionTimer (joinRoom st code sid nm).2 code =
        (joinRoom st code sid nm).2) := by
  constructor
  · intro st sid now code room player hpr hrm hns hfind hfil
    have hred : leaveRoom st sid now =
        (.preStart true (some LOBBY_GRACE_PERIOD),
         { st with
            rooms := insertA st.rooms code { room with players := [] }
            playerRooms := removeA st.playerRooms sid
            roomDeletionTimers := insertA st.roomDeletionTimers code st.nextTimer
            nextTimer := st.nextTimer + 1
            clearedTimers :=
              match lookupA st.roomDeletionTimers code with
              | some old => old :: st.clearedTimers
              | none => st.clearedTimers }) := by
      simp only [leaveRoom, hpr, hrm, hfind, hns, hfil, if_pos]
      rfl
    rw [hred]
    exact ⟨by simp [lookupA_insertA], insertA_self_exists _ _ _, rfl⟩
  · intro st code sid nm room hrm
    have hkey : ∀ stJ : ManagerState,
        stJ = (joinRoom st code sid nm).2 →
        lookupA stJ.roomDeletionTimers code = none →
        (∃ roomJ, lookupA stJ.rooms code = some roomJ) →
        lookupA stJ.roomDeletionTimers code = none ∧
        (∃ roomJ, lookupA stJ.rooms code = some roomJ) ∧
        fireRoomDeletionTimer stJ code = stJ := by
      intro stJ hJ htm hroom
      refine ⟨htm, hroom, ?_⟩
      simp [fireRoomDeletionTimer, htm]
    apply hkey _ rfl
    · simp only [joinRoom, hrm]
      cases htm : lookupA st.roomDeletionTimers code with
      | none =>
          simp only []
          repeat' split
          all_goals simp [lookupA_removeA, htm]
      | some h =>
          simp only []
          repeat' split
          all_goals simp [lookupA_removeA, htm]
    · simp only [joinRoom, hrm]
      repeat' split
      all_goals first
        | exact insertA_self_exists _ _ _
        | exact ⟨room, hrm⟩

/-- Witness for claim C10: the single seat of the lobby `W10state` leaves,
arming the deletion timer under handle `W10state.nextTimer`; a later join of
`"M"` cancels the pending entry and the subsequent expiry event is a no-op. -/
theorem claim_C10_witness :
    lookupA (leaveRoom W10state "a" 0).2.roomDeletionTimers "M" = some W10state.nextTimer ∧
    lookupA (joinRoom (leaveRoom W10state "a" 0).2 "M" "b" "B").2.roomDeletionTimers "M"
      = none ∧
    fireRoomDeletionTimer (joinRoom (leaveRoom W10state "a" 0).2 "M" "b" "B").2 "M" =
      (joinRoom (leaveRoom W10state "a" 0).2 "M" "b" "B").2 := by
  have h1 := claim_C10_deletion_timer_vs_join.1 W10state "a" 0 "M" W10room
    { socketId := "a", slot := 0, name := "A", ready := false } rfl rfl rfl rfl rfl
  have h2 := claim_C10_deletion_timer_vs_join.2 (leaveRoom W10state "a" 0).2 "M" "b" "B"
    W10roomAfter rfl
  exact ⟨h1.1, h2.1, h2.2.2⟩

/-! ### Preservation of `RecordsOK` by every manager entry point -/

theorem replaceFirst_exists_slot {p : RPlayer → Bool} {f : RPlayer → RPlayer}
    (hf : ∀ a, (f a).slot = a.slot) :
    ∀ (l : List RPlayer) (s : Nat),
      (∃ q, q ∈ l ∧ q.slot = s) → ∃ q, q ∈ replaceFirst p f l ∧ q.slot = s := by
  intro l
  induction l with
  | nil =>
      rintro s ⟨q, hq, -⟩
      cases hq
  | cons a rest ih =>
      rintro s ⟨q, hq, hs⟩
      simp only [replaceFirst]
      by_cases hp : p a = true
      · rw [if_pos hp]
        rcases List.mem_cons.mp hq with rfl | hmem
        · exact ⟨f q, List.mem_cons_self _ _, by rw [hf]; exact hs⟩
        · exact ⟨q, List.mem_cons_of_mem _ hmem, hs⟩
      · rw [if_neg hp]
        rcases List.mem_cons.mp hq with rfl | hmem
        · exact ⟨q, List.mem_cons_self _ _, hs⟩
        · obtain ⟨q1, hq1, hs1⟩ := ih s ⟨q, hmem, hs⟩
          exact ⟨q1, List.mem_cons_of_mem _ hq1, hs1⟩

/-- `RecordsOK` transfers along any state change that keeps the disconnect
map and does not lose started rooms or their slots. -/
theorem recordsOK_of_sim (st st' : ManagerState)
    (hdp : st'.disconnectedPlayers = st.disconnectedPlayers)
    (hrooms : ∀ c room, lookupA st.rooms c = some room → room.started = true →
      ∃ room', lookupA st'.rooms c = some room' ∧ room'.started = true ∧
        (∀ s, (∃ q, q ∈ room.players ∧ q.slot = s) →
          ∃ q, q ∈ room'.players ∧ q.slot = s))
    (h : RecordsOK st) : RecordsOK st' := by
  intro code recs slot record hdpc hrec
  rw [hdp] at hdpc
  obtain ⟨room, hrm, hst, q, hq, hqs⟩ := h code recs slot record hdpc hrec
  obtain ⟨room', hrm', hst', hmono⟩ := hrooms code room hrm hst
  obtain ⟨q1, hq1, hq1s⟩ := hmono slot ⟨q, hq, hqs⟩
  exact ⟨room', hrm', hst', q1, hq1, hq1s⟩

/-- Replacing the room under one code with a version that keeps startedness
and slots satisfies the room condition of `recordsOK_of_sim`. -/
theorem sim_insert_room (st : ManagerState) (rc : String) (roomJ newRoom : Room)
    (hrc : lookupA st.rooms rc = some roomJ)
    (hstarted : roomJ.started = true → newRoom.started = true)
    (hplayers : roomJ.started = true → ∀ s,
      (∃ q, q ∈ roomJ.players ∧ q.slot = s) → ∃ q, q ∈ newRoom.players ∧ q.slot = s) :
    ∀ c room, lookupA st.rooms c = some room → room.started = true →
      ∃ room', lookupA (insertA st.rooms rc newRoom) c = some room' ∧
        room'.started = true ∧
        (∀ s, (∃ q, q ∈ room.players ∧ q.slot = s) →
          ∃ q, q ∈ room'.players ∧ q.slot = s) := by
  intro c room hrm hst
  by_cases hc : rc = c
  · subst hc
    rw [hrc] at hrm
    injection hrm with hrm
    subst hrm
    exact ⟨newRoom, by rw [lookupA_insertA, if_pos rfl], hstarted hst, hplayers hst⟩
  · exact ⟨room, by rw [lookupA_insertA, if_neg hc]; exact hrm, hst, fun s hs => hs⟩

theorem recordsOK_init : RecordsOK initialManagerState := by
  intro code recs slot record h1 _
  cases h1

theorem recordsOK_createRoom (st : ManagerState) (code : String) (w pc cp now : Nat)
    (hfresh : lookupA st.rooms code = none) (h : RecordsOK st) :
    RecordsOK (createRoom st code w pc cp now) := by
  apply recordsOK_of_sim st (createRoom st code w pc cp now) rfl ?_ h
  intro c room hrm hst
  refine ⟨room, ?_, hst, fun s hs => hs⟩
  by_cases hc : code = c
  · subst hc
    rw [hfresh] at hrm
    cases hrm
  · simpa [createRoom, lookupA_insertA, hc] using hrm

theorem recordsOK_joinRoom (st : ManagerState) (rc sid nm : String)
    (h : RecordsOK st) : RecordsOK (joinRoom st rc sid nm).2 := by
  apply recordsOK_of_sim st _ ?_ ?_ h
  · dsimp only [joinRoom]
    repeat' split
    all_goals rfl
  · cases hrc : lookupA st.rooms rc with
    | none =>
        intro c room hrm hst
        refine ⟨room, ?_, hst, fun s hs => hs⟩
        simpa [joinRoom, hrc] using hrm
    | some roomJ =>
        have hrooms : (joinRoom st rc sid nm).2.rooms = st.rooms ∨
            (joinRoom st rc sid nm).2.rooms =
              insertA st.rooms rc
                { roomJ with players := roomJ.players ++
                    [{ socketId := sid, slot := roomJ.players.length
                       name := nm, ready := false }] } := by
          simp only [joinRoom, hrc]
          repeat' split
          all_goals simp
        rcases hrooms with heq | heq
        · intro c room hrm hst
          refine ⟨room, ?_, hst, fun s hs => hs⟩
          rw [heq]
          exact hrm
        · rw [heq]
          refine sim_insert_room st rc roomJ _ hrc ?_ ?_
          · exact fun hs => hs
          · rintro _ s ⟨q, hq, hqs⟩
            exact ⟨q, List.mem_append_left _ hq, hqs⟩

theorem recordsOK_startGame (st : ManagerState) (rc : String)
    (h : RecordsOK st) : RecordsOK (startGame st rc).2 := by
  apply recordsOK_of_sim st _ ?_ ?_ h
  · dsimp only [startGame]
    repeat' split
    all_goals rfl
  · cases hrc : lookupA st.rooms rc with
    | none =>
        intro c room hrm hst
        refine ⟨room, ?_, hst, fun s hs => hs⟩
        simpa [startGame, hrc] using hrm
    | some roomJ =>
        have hrooms : (startGame st rc).2.rooms = st.rooms ∨
            (startGame st rc).2.rooms =
              insertA st.rooms rc
                { roomJ with
                    gameState := some (initialGameState roomJ.players.length
                      (if roomJ.cubesPerPlayer == 0 then INITIAL_CUBES
                        else roomJ.cubesPerPlayer) roomJ.winCondition)
                    started := true } := by
          simp only [startGame, hrc]
          repeat' split
          all_goals simp
        rcases hrooms with heq | heq
        · intro c room hrm hst
          refine ⟨room, ?_, hst, fun s hs => hs⟩
          rw [heq]
          exact hrm
        · rw [heq]
          refine sim_insert_room st rc roomJ _ hrc ?_ ?_
          · exact fun _ => rfl
          · exact fun _ s hs => hs

theorem recordsOK_updateGameState (st : ManagerState) (rc : String) (gs : GameState)
    (h : RecordsOK st) : RecordsOK (updateGameState st rc gs) := by
  apply recordsOK_of_sim st _ ?_ ?_ h
  · dsimp only [updateGameState]
    repeat' split
    all_goals rfl
  · cases hrc : lookupA st.rooms rc with
    | none =>
        intro c room hrm hst
        refine ⟨room, ?_, hst, fun s hs => hs⟩
        simpa [updateGameState, hrc] using hrm
    | some roomJ =>
        have heq : (updateGameState st rc gs).rooms =
            insertA st.rooms rc { roomJ with gameState := some gs } := by
          simp [updateGameState, hrc]
        rw [heq]
        refine sim_insert_room st rc roomJ _ hrc ?_ ?_
        · exact fun hs => hs
        · exact fun _ s hs => hs

theorem recordsOK_setPlayerReady (st : ManagerState) (rc : String) (slot : Nat)
    (h : RecordsOK st) : RecordsOK (setPlayerReady st rc slot) := by
  apply recordsOK_of_sim st _ ?_ ?_ h
  · dsimp only [setPlayerReady]
    repeat' split
    all_goals rfl
  · cases hrc : lookupA st.rooms rc with
    | none =>
        intro c room hrm hst
        refine ⟨room, ?_, hst, fun s hs => hs⟩
        simpa [setPlayerReady, hrc] using hrm
    | some roomJ =>
        cases hf : roomJ.players.find? (fun p => p.slot == slot) with
        | none =>
            intro c room hrm hst
            refine ⟨room, ?_, hst, fun s hs => hs⟩
            simpa [setPlayerReady, hrc, hf] using hrm
        | some q =>
            have heq : (setPlayerReady st rc slot).rooms =
                insertA st.rooms rc
                  { roomJ with players :=
                      (replaceFirst (fun p => p.slot == slot)
                        (fun p => { p with ready := true }) roomJ.players) } := by
              simp [setPlayerReady, hrc, hf]
            rw [heq]
            refine sim_insert_room st rc roomJ _ hrc ?_ ?_
            · exact fun hs => hs
            · exact fun _ s hs =>
                @replaceFirst_exists_slot (fun p => p.slot == slot)
                  (fun p => { p with ready := true }) (fun _ => rfl) roomJ.players s hs

theorem recordsOK_setPlayerNotReady (st : ManagerState) (rc : String) (slot : Nat)
    (h : RecordsOK st) : RecordsOK (setPlayerNotReady st rc slot) := by
  apply recordsOK_of_sim st _ ?_ ?_ h
  · dsimp only [setPlayerNotReady]
    repeat' split
    all_goals rfl
  · cases hrc : lookupA st.rooms rc with
    | none =>
        intro c room hrm hst
        refine ⟨room, ?_, hst, fun s hs => hs⟩
        simpa [setPlayerNotReady, hrc] using hrm
    | some roomJ =>
        cases hf : roomJ.players.find? (fun p => p.slot == slot) with
        | none =>
            intro c room hrm hst
            refine ⟨room, ?_, hst, fun s hs => hs⟩
            simpa [setPlayerNotReady, hrc, hf] using hrm
        | some q =>
            have heq : (setPlayerNotReady st rc slot).rooms =
                insertA st.rooms rc
                  { roomJ with players :=
                      (replaceFirst (fun p => p.slot == slot)
                        (fun p => { p with ready := false }) roomJ.players) } := by
              simp [setPlayerNotReady, hrc, hf]
            rw [heq]
            refine sim_insert_room st rc roomJ _ hrc ?_ ?_
            · exact fun hs => hs
            · exact fun _ s hs =>
                @replaceFirst_exists_slot (fun p => p.slot == slot)
                  (fun p => { p with ready := false }) (fun _ => rfl) roomJ.players s hs

theorem rdp_dp_ne (st : ManagerState) (rc : String) (slot : Nat) (c : String)
    (hc : rc ≠ c) :
    lookupA (removeDisconnectedPlayer st rc slot).disconnectedPlayers c =
      lookupA st.disconnectedPlayers c := by
  dsimp only [removeDisconnectedPlayer]
  repeat' split
  all_goals simp [lookupA_insertA, lookupA_removeA, hc]

theorem rdp_rooms_ne (st : ManagerState) (rc : String) (slot : Nat) (c : String)
    (hc : rc ≠ c) :
    lookupA (removeDisconnectedPlayer st rc slot).rooms c = lookupA st.rooms c := by
  dsimp only [removeDisconnectedPlayer]
  repeat' split
  all_goals simp [lookupA_insertA, lookupA_removeA, hc]

theorem recordsOK_removeDisconnectedPlayer (st : ManagerState) (rc : String) (slot : Nat)
    (h : RecordsOK st) : RecordsOK (removeDisconnectedPlayer st rc slot) := by
  intro c recs' slot' record' hdpc hrec'
  by_cases hc : rc = c
  case neg =>
    rw [rdp_dp_ne st rc slot c hc] at hdpc
    obtain ⟨room0, hrm0, hst0, q, hq, hqs⟩ := h c recs' slot' record' hdpc hrec'
    exact ⟨room0, by rw [rdp_rooms_ne st rc slot c hc]; exact hrm0, hst0, q, hq, hqs⟩
  case pos =>
    subst hc
    cases hrc : lookupA st.rooms rc with
    | none =>
        have heq : removeDisconnectedPlayer st rc slot = st := by
          simp [removeDisconnectedPlayer, hrc]
        rw [heq] at hdpc ⊢
        exact h rc recs' slot' record' hdpc hrec'
    | some room =>
        by_cases hfe : (room.players.filter (fun p => !(p.slot == slot))).isEmpty = true
        · have hdpn :
              lookupA (removeDisconnectedPlayer st rc slot).disconnectedPlayers rc = none := by
            simp only [removeDisconnectedPlayer, hrc, hfe, if_true]
            repeat' split
            all_goals simp [lookupA_removeA]
          rw [hdpn] at hdpc
          cases hdpc
        · have hfil : room.players.filter (fun p => !(p.slot == slot)) ≠ [] := by
            intro hcon
            exact hfe (List.isEmpty_iff.mpr hcon)
          have hrooms1 := (removeDisconnectedPlayer_effect st rc slot room hrc).1 hfil
          cases hdp0 : lookupA st.disconnectedPlayers rc with
          | none =>
              have hdpn :
                  lookupA (removeDisconnectedPlayer st rc slot).disconnectedPlayers rc
                    = none := by
                simp only [removeDisconnectedPlayer, hrc, hdp0]
                rw [if_neg hfe]
                exact hdp0
              rw [hdpn] at hdpc
              cases hdpc
          | some recs0 =>
              by_cases hs0 : (lookupA recs0 slot).isSome = true
              · by_cases hre : (removeA recs0 slot).isEmpty = true
                · have hdpn :
                      lookupA (removeDisconnectedPlayer st rc slot).disconnectedPlayers rc
                        = none := by
                    simp only [removeDisconnectedPlayer, hrc, hdp0]
                    rw [if_pos hs0, if_pos hre, if_neg hfe]
                    simp [lookupA_removeA]
                  rw [hdpn] at hdpc
                  cases hdpc
                · have hdpeq :
                      lookupA (removeDisconnectedPlayer st rc slot).disconnectedPlayers rc
                        = some (removeA recs0 slot) := by
                    simp only [removeDisconnectedPlayer, hrc, hdp0]
                    rw [if_pos hs0, if_neg hre, if_neg hfe]
                    simp [lookupA_insertA]
                  rw [hdpeq] at hdpc
                  injection hdpc with hdpc
                  subst hdpc
                  rw [lookupA_removeA] at hrec'
                  by_cases hss : slot = slot'
                  · rw [if_pos hss] at hrec'
                    cases hrec'
                  · rw [if_neg hss] at hrec'
                    obtain ⟨room0, hrm0, hst0, q, hq, hqs⟩ :=
                      h rc recs0 slot' record' hdp0 hrec'
                    rw [hrc] at hrm0
                    injection hrm0 with hrm0
                    subst hrm0
                    refine ⟨_, hrooms1, hst0, q, ?_, hqs⟩
                    refine List.mem_filter.mpr ⟨hq, ?_⟩
                    simp only [Bool.not_eq_true', beq_eq_false_iff_ne, ne_eq, hqs]
                    exact fun hcon => hss hcon.symm
              · have hdpeq :
                    lookupA (removeDisconnectedPlayer st rc slot).disconnectedPlayers rc
                      = some recs0 := by
                  simp only [removeDisconnectedPlayer, hrc, hdp0]
                  rw [if_neg hs0, if_neg hfe]
                  exact hdp0
                rw [hdpeq] at hdpc
                injection hdpc with hdpc
                subst hdpc
                have hss : ¬ slot = slot' := by
                  intro hcon
                  subst hcon
                  rw [hrec'] at hs0
                  exact hs0 rfl
                obtain ⟨room0, hrm0, hst0, q, hq, hqs⟩ :=
                  h rc recs0 slot' record' hdp0 hrec'
                rw [hrc] at hrm0
                injection hrm0 with hrm0
                subst hrm0
                refine ⟨_, hrooms1, hst0, q, ?_, hqs⟩
                refine List.mem_filter.mpr ⟨hq, ?_⟩
                simp only [Bool.not_eq_true', beq_eq_false_iff_ne, ne_eq, hqs]
                exact fun hcon => hss hcon.symm

theorem recordsOK_leaveRoom (st : ManagerState) (sid : String) (now : Nat)
    (h : RecordsOK st) : RecordsOK (leaveRoom st sid now).2 := by
  cases hpr : lookupA st.playerRooms sid with
  | none =>
      have heq : (leaveRoom st sid now).2 = st := by simp [leaveRoom, hpr]
      rw [heq]; exact h
  | some rc =>
      cases hrc : lookupA st.rooms rc with
      | none =>
          have heq : (leaveRoom st sid now).2 = st := by simp [leaveRoom, hpr, hrc]
          rw [heq]; exact h
      | some room =>
          cases hfind : room.players.find? (fun p => p.socketId == sid) with
          | none =>
              have heq : (leaveRoom st sid now).2 = st := by
                simp [leaveRoom, hpr, hrc, hfind]
              rw [heq]; exact h
          | some player =>
              by_cases hns : room.started = false
              · apply recordsOK_of_sim st _ ?_ ?_ h
                · simp only [leaveRoom, hpr, hrc, hfind]
                  rw [if_pos hns]
                  split <;> rfl
                · have heqr : (leaveRoom st sid now).2.rooms =
                      insertA st.rooms rc
                        { room with players :=
                            (reindexFrom 0
                              (room.players.filter (fun p => !(p.socketId == sid)))) } := by
                    simp only [leaveRoom, hpr, hrc, hfind]
                    rw [if_pos hns]
                    split <;> rfl
                  rw [heqr]
                  refine sim_insert_room st rc room _ hrc ?_ ?_
                  · exact fun hs => hs
                  · intro hsT
                    rw [hns] at hsT
                    cases hsT
              · have hst : room.started = true := by
                  cases hb : room.started
                  · exact absurd hb hns
                  · rfl
                have hred : (leaveRoom st sid now).2 =
                    { st with
                        disconnectedPlayers :=
                          insertA st.disconnectedPlayers rc
                            (insertA ((lookupA st.disconnectedPlayers rc).getD [])
                              player.slot
                              { socketId := sid, disconnectTime := now
                                timeout := st.nextTimer, name := player.name })
                        playerRooms := removeA st.playerRooms sid
                        nextTimer := st.nextTimer + 1 } := by
                  simp only [leaveRoom, hpr, hrc, hfind]
                  rw [if_neg (by simp [hst])]
                rw [hred]
                intro c recs' slot' record' hdpc hrec'
                by_cases hc : rc = c
                · subst hc
                  rw [lookupA_insertA, if_pos rfl] at hdpc
                  injection hdpc with hdpc
                  subst hdpc
                  rw [lookupA_insertA] at hrec'
                  by_cases hss : player.slot = slot'
                  · exact ⟨room, hrc, hst, player, List.mem_of_find?_eq_some hfind, hss⟩
                  · rw [if_neg hss] at hrec'
                    cases hdp0 : lookupA st.disconnectedPlayers rc with
                    | none =>
                        rw [hdp0] at hrec'
                        simp [lookupA] at hrec'
                    | some recs0 =>
                        rw [hdp0] at hrec'
                        simp only [Option.getD_some] at hrec'
                        exact h rc recs0 slot' record' hdp0 hrec'
                · rw [lookupA_insertA, if_neg hc] at hdpc
                  exact h c recs' slot' record' hdpc hrec'

theorem recordsOK_reconnectPlayer (st : ManagerState) (rc sid : String) (slot : Nat)
    (h : RecordsOK st) : RecordsOK (reconnectPlayer st rc sid slot).2 := by
  cases hrc : lookupA st.rooms rc with
  | none =>
      have heq : (reconnectPlayer st rc sid slot).2 = st := by
        simp [reconnectPlayer, hrc]
      rw [heq]; exact h
  | some room =>
      cases hb : (lookupA st.disconnectedPlayers rc).bind (fun recs => lookupA recs slot) with
      | none =>
          have heq : (reconnectPlayer st rc sid slot).2 = st := by
            simp [reconnectPlayer, hrc, hb]
          rw [heq]; exact h
      | some record =>
          cases hdp0 : lookupA st.disconnectedPlayers rc with
          | none =>
              rw [hdp0] at hb
              cases hb
          | some recs0 =>
              have hrec0 : lookupA recs0 slot = some record := by
                rw [hdp0] at hb
                simpa using hb
              cases hfind : room.players.find? (fun p => p.slot == slot) with
              | none =>
                  have heq : (reconnectPlayer st rc sid slot).2 =
                      { st with clearedTimers := record.timeout :: st.clearedTimers } := by
                    simp only [reconnectPlayer, hrc, hb, hfind]
                  rw [heq]
                  intro c recs' slot' record' hdpc hrec'
                  exact h c recs' slot' record' hdpc hrec'
              | some q =>
                  have hred : (reconnectPlayer st rc sid slot).2 =
                      { st with
                          rooms := insertA st.rooms rc
                            { room with players :=
                                (replaceFirst (fun p => p.slot == slot)
                                  (fun p => { p with socketId := sid }) room.players) }
                          disconnectedPlayers :=
                            (if (removeA recs0 slot).isEmpty then
                              removeA st.disconnectedPlayers rc
                             else insertA st.disconnectedPlayers rc (removeA recs0 slot))
                          playerRooms := insertA st.playerRooms sid rc
                          clearedTimers := record.timeout :: st.clearedTimers } := by
                    simp only [reconnectPlayer, hrc, hdp0, Option.some_bind, hrec0, hfind,
                      Option.getD_some]
                  rw [hred]
                  intro c recs' slot' record' hdpc hrec'
                  by_cases hc : rc = c
                  · subst hc
                    by_cases hre : (removeA recs0 slot).isEmpty = true
                    · rw [if_pos hre, lookupA_removeA, if_pos rfl] at hdpc
                      cases hdpc
                    · rw [if_neg hre, lookupA_insertA, if_pos rfl] at hdpc
                      injection hdpc with hdpc
                      subst hdpc
                      rw [lookupA_removeA] at hrec'
                      by_cases hss : slot = slot'
                      · rw [if_pos hss] at hrec'
                        cases hrec'
                      · rw [if_neg hss] at hrec'
                        obtain ⟨room0, hrm0, hst0, q1, hq1, hq1s⟩ :=
                          h rc recs0 slot' record' hdp0 hrec'
                        rw [hrc] at hrm0
                        injection hrm0 with hrm0
                        subst hrm0
                        refine ⟨_, by rw [lookupA_insertA, if_pos rfl], ?_, ?_⟩
                        · exact hst0
                        · exact @replaceFirst_exists_slot (fun p => p.slot == slot)
                            (fun p => { p with socketId := sid }) (fun _ => rfl)
                            room.players slot' ⟨q1, hq1, hq1s⟩
                  · have hdpc' : lookupA st.disconnectedPlayers c = some recs' := by
                      by_cases hre : (removeA recs0 slot).isEmpty = true
                      · rw [if_pos hre, lookupA_removeA, if_neg hc] at hdpc
                        exact hdpc
                      · rw [if_neg hre, lookupA_insertA, if_neg hc] at hdpc
                        exact hdpc
                    obtain ⟨room0, hrm0, hst0, hex⟩ := h c recs' slot' record' hdpc' hrec'
                    exact ⟨room0, by rw [lookupA_insertA, if_neg hc]; exact hrm0, hst0, hex⟩

theorem recordsOK_fireRoomDeletionTimer (st : ManagerState) (rc : String)
    (h : RecordsOK st) : RecordsOK (fireRoomDeletionTimer st rc) := by
  cases htm : lookupA st.roomDeletionTimers rc with
  | none =>
      have heq : fireRoomDeletionTimer st rc = st := by
        simp [fireRoomDeletionTimer, htm]
      rw [heq]; exact h
  | some hd =>
      by_cases hcl : hd ∈ st.clearedTimers
      · have heq : fireRoomDeletionTimer st rc = st := by
          simp [fireRoomDeletionTimer, htm, hcl]
        rw [heq]; exact h
      · cases hrc : lookupA st.rooms rc with
        | none =>
            have heq : fireRoomDeletionTimer st rc =
                { st with roomDeletionTimers := removeA st.roomDeletionTimers rc } := by
              simp [fireRoomDeletionTimer, htm, hcl, hrc]
            rw [heq]
            intro c recs' slot' record' hdpc hrec'
            exact h c recs' slot' record' hdpc hrec'
        | some room =>
            by_cases hdel : room.started = false ∧ room.players.isEmpty = true
            · have heq : fireRoomDeletionTimer st rc =
                  { st with
                      rooms := removeA st.rooms rc
                      disconnectedPlayers := removeA st.disconnectedPlayers rc
                      roomDeletionTimers := removeA st.roomDeletionTimers rc } := by
                simp only [fireRoomDeletionTimer, htm, hcl, hrc]
                rw [if_pos hdel]
                simp
              rw [heq]
              intro c recs' slot' record' hdpc hrec'
              rw [lookupA_removeA] at hdpc
              by_cases hc : rc = c
              · rw [if_pos hc] at hdpc
                cases hdpc
              · rw [if_neg hc] at hdpc
                obtain ⟨room0, hrm0, hst0, hex⟩ := h c recs' slot' record' hdpc hrec'
                exact ⟨room0, by rw [lookupA_removeA, if_neg hc]; exact hrm0, hst0, hex⟩
            · have heq : fireRoomDeletionTimer st rc =
                  { st with roomDeletionTimers := removeA st.roomDeletionTimers rc } := by
                simp only [fireRoomDeletionTimer, htm, hcl, hrc]
                rw [if_neg hdel]
                simp
              rw [heq]
              intro c recs' slot' record' hdpc hrec'
              exact h c recs' slot' record' hdpc hrec'

theorem recordsOK_fireDisconnectTimer (st : ManagerState) (rc : String) (slot : Nat)
    (h : RecordsOK st) : RecordsOK (fireDisconnectTimer st rc slot) := by
  cases hb : (lookupA st.disconnectedPlayers rc).bind (fun recs => lookupA recs slot) with
  | none =>
      have heq : fireDisconnectTimer st rc slot = st := by
        simp [fireDisconnectTimer, hb]
      rw [heq]; exact h
  | some record =>
      by_cases hcl : record.timeout ∈ st.clearedTimers
      · have heq : fireDisconnectTimer st rc slot = st := by
          simp [fireDisconnectTimer, hb, hcl]
        rw [heq]; exact h
      · have heq : fireDisconnectTimer st rc slot = removeDisconnectedPlayer st rc slot := by
          simp [fireDisconnectTimer, hb, hcl]
        rw [heq]
        exact recordsOK_removeDisconnectedPlayer st rc slot h

/-- Every manager state the server can reach satisfies `RecordsOK`. -/
theorem reachable_recordsOK (st : ManagerState) (h : Reachable st) : RecordsOK st := by
  induction h with
  | init => exact recordsOK_init
  | createRoom st code w pc cp now _ hfresh ih =>
      exact recordsOK_createRoom st code w pc cp now hfresh ih
  | joinRoom st rc sid nm _ ih => exact recordsOK_joinRoom st rc sid nm ih
  | leaveRoom st sid now _ ih => exact recordsOK_leaveRoom st sid now ih
  | reconnectPlayer st rc sid slot _ ih => exact recordsOK_reconnectPlayer st rc sid slot ih
  | startGame st rc _ ih => exact recordsOK_startGame st rc ih
  | updateGameState st rc gs _ ih => exact recordsOK_updateGameState st rc gs ih
  | setPlayerReady st rc slot _ ih => exact recordsOK_setPlayerReady st rc slot ih
  | setPlayerNotReady st rc slot _ ih => exact recordsOK_setPlayerNotReady st rc slot ih
  | fireRoomDeletionTimer st rc _ ih => exact recordsOK_fireRoomDeletionTimer st rc ih
  | fireDisconnectTimer st rc slot _ ih => exact recordsOK_fireDisconnectTimer st rc slot ih

theorem find?_replaceFirst {p : RPlayer → Bool} {f : RPlayer → RPlayer}
    (hpf : ∀ a, p (f a) = p a) :
    ∀ l : List RPlayer, (replaceFirst p f l).find? p = (l.find? p).map f := by
  intro l
  induction l with
  | nil => rfl
  | cons a rest ih =>
      simp only [replaceFirst]
      by_cases hp : p a = true
      · rw [if_pos hp, List.find?_cons_of_pos _ (by rw [hpf]; exact hp),
          List.find?_cons_of_pos _ hp]
        rfl
      · rw [if_neg hp, List.find?_cons_of_neg _ hp, List.find?_cons_of_neg _ hp, ih]

/-- Claim C7.  On every reachable manager state, `reconnectPlayer` succeeds
exactly when a live `DisconnectRecord` exists for that slot of that room: on
success it rebinds the slot's seat to the new socket id, clears the record,
and thereby disables the pending grace-timer expiry (which fires only while
its record lives); with no record it returns a rejection and leaves the state
unchanged. -/
theorem claim_C7_reconnect_iff_record (st : ManagerState) (code sid : String) (slot : Nat)
    (hreach : Reachable st) :
    ((∃ r, (lookupA st.disconnectedPlayers code).bind (fun recs => lookupA recs slot)
        = some r) →
      (∃ s, (reconnectPlayer st code sid slot).1 = .ok s) ∧
      (∃ room1, lookupA (reconnectPlayer st code sid slot).2.rooms code = some room1 ∧
        ((room1.players.find? (fun p => p.slot == slot)).map (fun p => p.socketId))
          = some sid) ∧
      ((lookupA (reconnectPlayer st code sid slot).2.disconnectedPlayers code).bind
        (fun recs => lookupA recs slot)) = none ∧
      fireDisconnectTimer (reconnectPlayer st code sid slot).2 code slot =
        (reconnectPlayer st code sid slot).2) ∧
    (((lookupA st.disconnectedPlayers code).bind (fun recs => lookupA recs slot)) = none →
      (∃ m, (reconnectPlayer st code sid slot).1 = .err m) ∧
      (reconnectPlayer st code sid slot).2 = st) := by
  have hOK := reachable_recordsOK st hreach
  constructor
  · rintro ⟨r, hr⟩
    cases hdp0 : lookupA st.disconnectedPlayers code with
    | none =>
        rw [hdp0] at hr
        cases hr
    | some recs0 =>
        have hrec0 : lookupA recs0 slot = some r := by
          rw [hdp0] at hr
          simpa using hr
        obtain ⟨room, hrm, hst, q, hq, hqs⟩ := hOK code recs0 slot r hdp0 hrec0
        cases hfind : room.players.find? (fun p => p.slot == slot) with
        | none =>
            exact absurd (by simp [hqs]) (List.find?_eq_none.mp hfind q hq)
        | some q2 =>
            have hred : reconnectPlayer st code sid slot =
                (.ok slot,
                 { st with
                    rooms := insertA st.rooms code
                      { room with players :=
                          (replaceFirst (fun p => p.slot == slot)
                            (fun p => { p with socketId := sid }) room.players) }
                    disconnectedPlayers :=
                      (if (removeA recs0 slot).isEmpty then
                        removeA st.disconnectedPlayers code
                       else insertA st.disconnectedPlayers code (removeA recs0 slot))
                    playerRooms := insertA st.playerRooms sid code
                    clearedTimers := r.timeout :: st.clearedTimers }) := by
              simp only [reconnectPlayer, hrm, hdp0, Option.some_bind, hrec0, hfind,
                Option.getD_some]
            have hdpnone :
                ((lookupA (reconnectPlayer st code sid slot).2.disconnectedPlayers code).bind
                  (fun recs => lookupA recs slot)) = none := by
              rw [hred]
              by_cases hre : (removeA recs0 slot).isEmpty = true
              · rw [if_pos hre]
                simp [lookupA_removeA]
              · rw [if_neg hre]
                simp [lookupA_insertA, lookupA_removeA]
            refine ⟨⟨slot, by rw [hred]⟩, ?_, hdpnone, ?_⟩
            · refine ⟨_, by rw [hred]; rw [lookupA_insertA, if_pos rfl], ?_⟩
              have hfr := find?_replaceFirst
                (p := fun p => p.slot == slot) (f := fun p => { p with socketId := sid })
                (fun _ => rfl) room.players
              rw [hfr, hfind]
              rfl
            · cases hfire : (lookupA
                  (reconnectPlayer st code sid slot).2.disconnectedPlayers code) with
              | none => simp [fireDisconnectTimer, hfire]
              | some recsF =>
                  have : lookupA recsF slot = none := by
                    rw [hfire] at hdpnone
                    simpa using hdpnone
                  simp [fireDisconnectTimer, hfire, this]
  · intro hnone
    cases hrm : lookupA st.rooms code with
    | none =>
        exact ⟨⟨"Room not found", by simp [reconnectPlayer, hrm]⟩,
          by simp [reconnectPlayer, hrm]⟩
    | some room =>
        exact ⟨⟨"No disconnected player found for this slot",
          by simp [reconnectPlayer, hrm, hnone]⟩,
          by simp [reconnectPlayer, hrm, hnone]⟩

/-- Witness for claim C7: in the reachable state `W7state` (seat `"s1"` of
started room `"R"` dropped mid-game), a record for slot 0 is live and the
reconnection of a new transport `"s3"` to slot 0 succeeds. -/
theorem claim_C7_witness :
    (∃ r, (lookupA W7state.disconnectedPlayers "R").bind (fun recs => lookupA recs 0)
      = some r) ∧
    (∃ s, (reconnectPlayer W7state "R" "s3" 0).1 = ReconnectResult.ok s) := by
  have h0 : Reachable initialManagerState := Reachable.init
  have h1 := Reachable.createRoom initialManagerState "R" 4 2 1 0 h0 rfl
  have h2 := Reachable.joinRoom _ "R" "s1" "A" h1
  have h3 := Reachable.joinRoom _ "R" "s2" "B" h2
  have h4 := Reachable.startGame _ "R" h3
  have h5 := Reachable.leaveRoom _ "s1" 100 h4
  have hb : (∃ r, (lookupA W7state.disconnectedPlayers "R").bind
      (fun recs => lookupA recs 0) = some r) :=
    ⟨{ socketId := "s1", disconnectTime := 100, timeout := 0, name := "A" }, rfl⟩
  exact ⟨hb, ((claim_C7_reconnect_iff_record W7state "R" "s3" 0 h5).1 hb).1⟩

end CubeConnect
